import Mathlib

/-!
# CJ202 CO2 sensor driver: embedding and verification

Shallow embedding of `cj202_common.c`, `cj202_gpio.c`, `cj202_mcpwm.c` and
`cj202_co2_sensor.c`.

* Unsigned machine integers are `Nat` with explicit reduction modulo `2^32` or
  `2^64` where the C arithmetic can wrap.
* `float` is IEEE-754 binary32 with round-to-nearest-even.  A value is kept as an
  integer significand and a binary exponent (`F32`), and every float operation of
  the source is the exact operation followed by one rounding to 24 significant
  bits (`F32.round`).  The exponent is unbounded in the model; every nonzero value
  the driver computes from 32-bit inputs and a nonzero clock frequency lies between
  `2^-40` and `2^53`, far inside the binary32 normal range, so no overflow, infinity
  or subnormal arises.
* Calls into ESP-IDF / FreeRTOS are parameters: the value they return is an
  argument of the embedded function.
-/

namespace CJ202

/-! ## binary32 arithmetic -/

/-- A finite binary32 value `m * 2^e`. -/
structure F32 where
  m : Int
  e : Int
deriving DecidableEq, Repr

namespace F32

/-- The rational number a value stands for. -/
def toRat (x : F32) : ℚ := (x.m : ℚ) * (2 : ℚ) ^ x.e

/-- Number of binary digits of `n`, computed with `f` halving steps. -/
def blen : Nat → Nat → Nat
  | 0, _ => 0
  | f + 1, n => if n = 0 then 0 else blen f (n / 2) + 1

/-- Nearest integer to `n / d`, ties to the even neighbour. -/
def rne (n d : Nat) : Nat :=
  if 2 * (n % d) < d then n / d
  else if d < 2 * (n % d) then n / d + 1
  else if (n / d) % 2 = 0 then n / d else n / d + 1

/-- Floor of the binary logarithm of `n / d`, for positive `n` and `d`. -/
def ilog2 (n d : Nat) : Int :=
  if d * 2 ^ ((blen n n : Int) - (blen d d : Int)).toNat
      ≤ n * 2 ^ ((blen d d : Int) - (blen n n : Int)).toNat
  then (blen n n : Int) - (blen d d : Int)
  else (blen n n : Int) - (blen d d : Int) - 1

/-- Round the positive rational `(n / d) * 2^s` to 24 significant bits. -/
def roundPos (n d : Nat) (s : Int) : F32 :=
  { m := (rne (n * 2 ^ (23 - ilog2 n d).toNat) (d * 2 ^ (ilog2 n d - 23).toNat) : Nat)
    e := s + ilog2 n d - 23 }

/-- Round the rational `(n / d) * 2^s` (with `d > 0`) to binary32. -/
def round (n : Int) (d : Nat) (s : Int) : F32 :=
  if n = 0 then { m := 0, e := 0 }
  else if 0 < n then roundPos n.toNat d s
  else { m := -(roundPos (-n).toNat d s).m, e := (roundPos (-n).toNat d s).e }

/-- A float literal with an integer value below `2^24` (exactly representable). -/
def lit (n : Nat) : F32 := { m := n, e := 0 }

/-- Conversion of an unsigned integer to `float`. -/
def ofNat (n : Nat) : F32 := round n 1 0

/-- Float multiplication. -/
def mul (a b : F32) : F32 := round (a.m * b.m) 1 (a.e + b.e)

/-- Float division; a zero divisor (infinity or NaN in C) is outside the model
and never occurs in the driver, the model returns zero for it. -/
def div (a b : F32) : F32 :=
  if b.m = 0 then { m := 0, e := 0 }
  else round (a.m * Int.sign b.m) b.m.natAbs (a.e - b.e)

/-- Float subtraction. -/
def sub (a b : F32) : F32 :=
  round (a.m * 2 ^ (a.e - min a.e b.e).toNat - b.m * 2 ^ (b.e - min a.e b.e).toNat) 1
    (min a.e b.e)

/-- Float comparison `a < b`. -/
def lt (a b : F32) : Bool :=
  decide (a.m * 2 ^ (a.e - min a.e b.e).toNat < b.m * 2 ^ (b.e - min a.e b.e).toNat)

/-- Float comparison `a ≤ b`. -/
def le (a b : F32) : Bool :=
  decide (a.m * 2 ^ (a.e - min a.e b.e).toNat ≤ b.m * 2 ^ (b.e - min a.e b.e).toNat)

/-- Conversion `(uint32_t)x`: truncation toward zero.  C leaves the conversion
undefined for values outside `(-1, 2^32)`; the model saturates there. -/
def toU32 (x : F32) : Nat :=
  if x.m ≤ 0 then 0
  else min (if 0 ≤ x.e then x.m.toNat * 2 ^ x.e.toNat else x.m.toNat / 2 ^ (-x.e).toNat)
    (2 ^ 32 - 1)

end F32

/-! ## cj202_common.c -/

/-- Lower clamp of the CO2 range. -/
def CO2_SENSOR_MIN_PPM : Nat := 0

/-- Upper clamp of the CO2 range. -/
def CO2_SENSOR_MAX_PPM : Nat := 5000

/-- The float expression `5000.0f * (high_level_ms - 2.0f) / (period_ms - 4.0f)`. -/
def co2_float (high_level_ms period_ms : Nat) : F32 :=
  F32.div (F32.mul (F32.lit 5000) (F32.sub (F32.ofNat high_level_ms) (F32.lit 2)))
    (F32.sub (F32.ofNat period_ms) (F32.lit 4))

/-- The two range limits applied to the float value. -/
def co2_clamp (co2 : F32) : F32 :=
  let c1 := if F32.lt co2 (F32.lit CO2_SENSOR_MIN_PPM) then F32.lit CO2_SENSOR_MIN_PPM else co2
  if F32.lt (F32.lit CO2_SENSOR_MAX_PPM) c1 then F32.lit CO2_SENSOR_MAX_PPM else c1

/-- Embedding of `cj202_calculate_co2_ppm`. -/
def cj202_calculate_co2_ppm (high_level_ms period_ms : Nat) : Nat :=
  if period_ms ≤ 4 ∨ high_level_ms ≤ 2 then 0
  else F32.toU32 (co2_clamp (co2_float high_level_ms period_ms))

/-- Spec-side formula: `5000 × (high − 2) / (period − 4)` over the rationals, clamped
to `[0, 5000]` and truncated toward zero. -/
def ppm_exact (high_level_ms period_ms : Nat) : Int :=
  ⌊min (max (5000 * ((high_level_ms : ℚ) - 2) / ((period_ms : ℚ) - 4)) 0) 5000⌋

/-! ## cj202_co2_sensor.h and cj202_internal.h -/

/-- The ESP-IDF error type (a C `int`). -/
abbrev esp_err_t := Int

/-- Success code of `esp_err.h`. -/
def ESP_OK : esp_err_t := 0

/-- Generic failure code of `esp_err.h`. -/
def ESP_FAIL : esp_err_t := -1

/-- Out of memory, `esp_err.h`. -/
def ESP_ERR_NO_MEM : esp_err_t := 0x101

/-- Invalid argument, `esp_err.h`. -/
def ESP_ERR_INVALID_ARG : esp_err_t := 0x102

/-- Invalid state, `esp_err.h`. -/
def ESP_ERR_INVALID_STATE : esp_err_t := 0x103

/-- Not supported, `esp_err.h`. -/
def ESP_ERR_NOT_SUPPORTED : esp_err_t := 0x106

/-- First enumerator of `cj202_capture_mode_t`. -/
def CJ202_MODE_GPIO_INTERRUPT : Nat := 0

/-- Second enumerator of `cj202_capture_mode_t`, present only on targets with MCPWM. -/
def CJ202_MODE_MCPWM_CAPTURE : Nat := 1

/-- The configuration record `cj202_config_t`; `mode` holds the integer value of the
C enum, so that values outside the enumerators reach the `default` branches. -/
structure cj202_config_t where
  gpio_num : Nat
  mode : Nat
  intr_alloc_flags : Int
deriving DecidableEq, Repr

/-- The device record `cj202_dev_t`.  Queue, task, timer and channel handles are kept
as `Bool` (true for a non-NULL handle). -/
structure cj202_dev_t where
  gpio_num : Nat
  mode : Nat
  co2_ppm : Nat
  intr_alloc_flags : Int
  gpio_evt_queue : Bool
  gpio_task_handle : Bool
  rising_time : Nat
  falling_time : Nat
  measurement_ready : Bool
  high_level_time_ms : Nat
  period_time_ms : Nat
  mcpwm_task_handle : Bool
  cap_timer : Bool
  cap_chan : Bool
  prev_high_ticks : Nat
  prev_period_ticks : Nat
  first_measurement : Bool
  last_capture_time : Nat
deriving DecidableEq, Repr

/-- The all-zero record returned by `calloc(1, sizeof(cj202_dev_t))`. -/
def dev_zero : cj202_dev_t :=
  { gpio_num := 0, mode := 0, co2_ppm := 0, intr_alloc_flags := 0,
    gpio_evt_queue := false, gpio_task_handle := false, rising_time := 0, falling_time := 0,
    measurement_ready := false, high_level_time_ms := 0, period_time_ms := 0,
    mcpwm_task_handle := false, cap_timer := false, cap_chan := false,
    prev_high_ticks := 0, prev_period_ticks := 0, first_measurement := false,
    last_capture_time := 0 }

/-! ## cj202_gpio.c -/

/-- Embedding of `gpio_isr_handler`: `current_time` is `esp_timer_get_time() / 1000`
(a `uint64_t`), `gpio_level` the value of `gpio_get_level`.  The 64-bit expressions
wrap modulo `2^64` and are truncated to 32 bits when stored. -/
def gpio_isr_handler (dev : cj202_dev_t) (current_time : Nat) (gpio_level : Int) :
    cj202_dev_t :=
  if gpio_level = 1 then
    let dev1 := { dev with rising_time := current_time }
    if dev1.falling_time > 0 then
      { dev1 with
        period_time_ms :=
          ((current_time + 2 ^ 64 - dev1.falling_time) % 2 ^ 64 + dev1.high_level_time_ms)
            % 2 ^ 64 % 2 ^ 32 }
    else dev1
  else
    let dev1 := { dev with falling_time := current_time }
    if dev1.rising_time > 0 then
      { dev1 with
        high_level_time_ms := (current_time + 2 ^ 64 - dev1.rising_time) % 2 ^ 64 % 2 ^ 32
        measurement_ready := true }
    else dev1

/-- The period window test of `cj202_gpio_task`. -/
def gpio_period_valid (dev : cj202_dev_t) : Bool :=
  decide (dev.period_time_ms ≥ 950) && decide (dev.period_time_ms ≤ 1050)

/-- Embedding of one iteration of the loop of `cj202_gpio_task` after `xQueueReceive`
returned an item. -/
def cj202_gpio_task (dev : cj202_dev_t) : cj202_dev_t :=
  if dev.measurement_ready then
    let dev1 :=
      if gpio_period_valid dev then
        { dev with
          co2_ppm := cj202_calculate_co2_ppm dev.high_level_time_ms dev.period_time_ms }
      else dev
    { dev1 with measurement_ready := false }
  else dev

/-- Results of the platform calls made by `cj202_gpio_init`. -/
structure gpio_env where
  queue_created : Bool
  gpio_config_ret : esp_err_t
  isr_service_ret : esp_err_t
  isr_handler_add_ret : esp_err_t
  task_created : Bool
deriving DecidableEq, Repr

/-- Embedding of `cj202_gpio_init`; the result pairs the return code with the device
record as the call leaves it. -/
def cj202_gpio_init (env : gpio_env) : Option cj202_dev_t → esp_err_t × Option cj202_dev_t
  | none => (ESP_ERR_INVALID_ARG, none)
  | some dev =>
    let d1 := { dev with
      rising_time := 0, falling_time := 0, measurement_ready := false,
      high_level_time_ms := 0, period_time_ms := 0, co2_ppm := 0 }
    if env.queue_created = false then (ESP_FAIL, some { d1 with gpio_evt_queue := false })
    else if env.gpio_config_ret ≠ ESP_OK then
      (env.gpio_config_ret, some { d1 with gpio_evt_queue := false })
    else if env.isr_service_ret ≠ ESP_OK ∧ env.isr_service_ret ≠ ESP_ERR_INVALID_STATE then
      (env.isr_service_ret, some { d1 with gpio_evt_queue := false })
    else if env.isr_handler_add_ret ≠ ESP_OK then
      (env.isr_handler_add_ret, some { d1 with gpio_evt_queue := false })
    else if env.task_created = false then (ESP_FAIL, some { d1 with gpio_evt_queue := false })
    else (ESP_OK, some { d1 with gpio_evt_queue := true, gpio_task_handle := true })

/-- Embedding of `cj202_gpio_get_ppm`. -/
def cj202_gpio_get_ppm : Option cj202_dev_t → Nat
  | none => 0
  | some dev => dev.co2_ppm

/-! ## cj202_mcpwm.c -/

/-- Lower limit of the period window in ms. -/
def CO2_PERIOD_MIN_MS : Nat := 950

/-- Upper limit of the period window in ms. -/
def CO2_PERIOD_MAX_MS : Nat := 1050

/-- The capture edge reported by the MCPWM driver; `other` stands for a value that
reaches the `default` branch. -/
inductive mcpwm_capture_edge_t where
  | MCPWM_CAP_EDGE_POS
  | MCPWM_CAP_EDGE_NEG
  | other
deriving DecidableEq, Repr

/-- The function-static record `co2_cap_data`. -/
structure co2_capture_data_t where
  cap_val_begin : Nat
  cap_val_end : Nat
  pos_edge_captured : Bool
deriving DecidableEq, Repr

/-- Embedding of `co2_sensor_capture_callback`: the new static record and the value
passed to `xTaskNotifyFromISR`, if the call is made. -/
def co2_sensor_capture_callback (co2_cap_data : co2_capture_data_t)
    (cap_edge : mcpwm_capture_edge_t) (cap_value : Nat) : co2_capture_data_t × Option Nat :=
  match cap_edge with
  | .MCPWM_CAP_EDGE_POS =>
    ({ co2_cap_data with cap_val_begin := cap_value, pos_edge_captured := true }, none)
  | .MCPWM_CAP_EDGE_NEG =>
    if co2_cap_data.pos_edge_captured then
      let d := { co2_cap_data with cap_val_end := cap_value, pos_edge_captured := false }
      if d.cap_val_end > d.cap_val_begin then (d, some (d.cap_val_end - d.cap_val_begin))
      else (d, none)
    else (co2_cap_data, none)
  | .other => (co2_cap_data, none)

/-- The float constant `tick_to_us = 1000000.0f / apb_freq`. -/
def tick_to_us (apb_freq : Nat) : F32 := F32.div (F32.lit 1000000) (F32.ofNat apb_freq)

/-- The float expression `(ticks * tick_to_us) / 1000.0f`. -/
def ticks_to_ms (apb_freq ticks : Nat) : F32 :=
  F32.div (F32.mul (F32.ofNat ticks) (tick_to_us apb_freq)) (F32.lit 1000)

/-- The value of `period_ticks` in `cj202_mcpwm_task`. -/
def mcpwm_period_ticks (apb_freq : Nat) (dev : cj202_dev_t) (current_time : Nat) : Nat :=
  if dev.first_measurement = false then
    ((current_time + 2 ^ 32 - dev.last_capture_time) % 2 ^ 32 * (apb_freq / 1000)) % 2 ^ 32
  else 0

/-- The sanity check of `cj202_mcpwm_task` on the two float values. -/
def mcpwm_sample_valid (high_pulse_ms period_ms : F32) : Bool :=
  F32.lt (F32.lit 0) period_ms && F32.le high_pulse_ms period_ms &&
    F32.le (F32.lit CO2_PERIOD_MIN_MS) period_ms && F32.le period_ms (F32.lit CO2_PERIOD_MAX_MS)

/-- Embedding of one iteration of the loop of `cj202_mcpwm_task`: `notified` is the
value `xTaskNotifyWait` delivered (`none` on timeout), `current_time` the value of
`xTaskGetTickCount() * portTICK_PERIOD_MS`, `apb_freq` that of `esp_clk_apb_freq()`. -/
def cj202_mcpwm_task (apb_freq : Nat) (dev : cj202_dev_t) (notified : Option Nat)
    (current_time : Nat) : cj202_dev_t :=
  match notified with
  | none => dev
  | some high_pulse_ticks =>
    let period_ticks := mcpwm_period_ticks apb_freq dev current_time
    let dev1 := { dev with first_measurement := false, last_capture_time := current_time }
    let high_pulse_ms := ticks_to_ms apb_freq high_pulse_ticks
    let period_ms := ticks_to_ms apb_freq period_ticks
    if mcpwm_sample_valid high_pulse_ms period_ms then
      { dev1 with
        co2_ppm := cj202_calculate_co2_ppm (F32.toU32 high_pulse_ms) (F32.toU32 period_ms)
        prev_high_ticks := high_pulse_ticks
        prev_period_ticks := period_ticks }
    else if dev1.prev_period_ticks > 0 then
      { dev1 with
        co2_ppm := cj202_calculate_co2_ppm
          (F32.toU32 (ticks_to_ms apb_freq dev1.prev_high_ticks))
          (F32.toU32 (ticks_to_ms apb_freq dev1.prev_period_ticks)) }
    else dev1

/-- Embedding of `cleanup_resources`. -/
def cleanup_resources (dev : cj202_dev_t) (error : esp_err_t) : esp_err_t × cj202_dev_t :=
  (error, { dev with cap_chan := false, cap_timer := false })

/-- Results of the platform calls made by `cj202_mcpwm_init`. -/
structure mcpwm_env where
  new_timer_ret : esp_err_t
  new_channel_ret : esp_err_t
  register_ret : esp_err_t
  channel_enable_ret : esp_err_t
  timer_enable_ret : esp_err_t
  timer_start_ret : esp_err_t
  task_created : Bool
deriving DecidableEq, Repr

/-- Embedding of `cj202_mcpwm_init`. -/
def cj202_mcpwm_init (env : mcpwm_env) : Option cj202_dev_t → esp_err_t × Option cj202_dev_t
  | none => (ESP_ERR_INVALID_ARG, none)
  | some dev =>
    let d1 := { dev with
      co2_ppm := 0, prev_high_ticks := 0, prev_period_ticks := 0,
      first_measurement := true, last_capture_time := 0 }
    if env.new_timer_ret ≠ ESP_OK then (env.new_timer_ret, some d1)
    else
      let d2 := { d1 with cap_timer := true }
      if env.new_channel_ret ≠ ESP_OK then
        ((cleanup_resources d2 env.new_channel_ret).1,
          some (cleanup_resources d2 env.new_channel_ret).2)
      else
        let d3 := { d2 with cap_chan := true, mcpwm_task_handle := true }
        if env.register_ret ≠ ESP_OK then
          ((cleanup_resources d3 env.register_ret).1,
            some (cleanup_resources d3 env.register_ret).2)
        else if env.channel_enable_ret ≠ ESP_OK then
          ((cleanup_resources d3 env.channel_enable_ret).1,
            some (cleanup_resources d3 env.channel_enable_ret).2)
        else if env.timer_enable_ret ≠ ESP_OK then
          ((cleanup_resources d3 env.timer_enable_ret).1,
            some (cleanup_resources d3 env.timer_enable_ret).2)
        else if env.timer_start_ret ≠ ESP_OK then
          ((cleanup_resources d3 env.timer_start_ret).1,
            some (cleanup_resources d3 env.timer_start_ret).2)
        else if env.task_created = false then
          ((cleanup_resources d3 ESP_FAIL).1, some (cleanup_resources d3 ESP_FAIL).2)
        else (ESP_OK, some d3)

/-- Embedding of `cj202_mcpwm_get_ppm`. -/
def cj202_mcpwm_get_ppm : Option cj202_dev_t → Nat
  | none => 0
  | some dev => dev.co2_ppm

/-! ## cj202_co2_sensor.c -/

/-- The device record `cj202_init` prepares before it calls the backend. -/
def dev_of_config (config : cj202_config_t) : cj202_dev_t :=
  { dev_zero with
    gpio_num := config.gpio_num, mode := config.mode,
    intr_alloc_flags := config.intr_alloc_flags, co2_ppm := 0 }

/-- The `switch (dev->mode)` of `cj202_init`; `has_mcpwm` is false on the targets
(ESP32-C2, ESP32-C3) for which the MCPWM case is compiled out. -/
def init_backend (has_mcpwm : Bool) (genv : gpio_env) (menv : mcpwm_env)
    (dev : cj202_dev_t) : esp_err_t × Option cj202_dev_t :=
  if dev.mode = CJ202_MODE_GPIO_INTERRUPT then cj202_gpio_init genv (some dev)
  else if has_mcpwm = true ∧ dev.mode = CJ202_MODE_MCPWM_CAPTURE then
    cj202_mcpwm_init menv (some dev)
  else (ESP_ERR_NOT_SUPPORTED, some dev)

/-- Embedding of `cj202_init`.  `config` is `none` for a NULL pointer; `handle` is
`none` for a NULL pointer and otherwise holds the current content of `*handle`
(`none` for a NULL handle).  `alloc_ok` tells whether `calloc` succeeds.  The result
pairs the return code with the content of `*handle` after the call. -/
def cj202_init (has_mcpwm alloc_ok : Bool) (genv : gpio_env) (menv : mcpwm_env)
    (config : Option cj202_config_t) (handle : Option (Option cj202_dev_t)) :
    esp_err_t × Option (Option cj202_dev_t) :=
  match config, handle with
  | none, _ => (ESP_ERR_INVALID_ARG, handle)
  | some _, none => (ESP_ERR_INVALID_ARG, handle)
  | some cfg, some old =>
    if alloc_ok = false then (ESP_ERR_NO_MEM, some old)
    else
      if (init_backend has_mcpwm genv menv (dev_of_config cfg)).1 ≠ ESP_OK then
        ((init_backend has_mcpwm genv menv (dev_of_config cfg)).1, some old)
      else (ESP_OK, some (init_backend has_mcpwm genv menv (dev_of_config cfg)).2)

/-- Embedding of `cj202_get_ppm`. -/
def cj202_get_ppm (has_mcpwm : Bool) : Option cj202_dev_t → Nat
  | none => 0
  | some dev =>
    if dev.mode = CJ202_MODE_GPIO_INTERRUPT then cj202_gpio_get_ppm (some dev)
    else if has_mcpwm = true ∧ dev.mode = CJ202_MODE_MCPWM_CAPTURE then
      cj202_mcpwm_get_ppm (some dev)
    else 0

/-! ## The running system -/

/-- A sensor instance at run time: the device record, the number of items in
`gpio_evt_queue` (capacity 10), the static capture record of the MCPWM callback and
the pending task notification value. -/
structure cj202_sys where
  dev : cj202_dev_t
  queued : Nat
  cap : co2_capture_data_t
  notify : Option Nat
deriving DecidableEq, Repr

/-- The system right after a successful `cj202_init`. -/
def sys_start (dev : cj202_dev_t) : cj202_sys :=
  { dev := dev, queued := 0,
    cap := { cap_val_begin := 0, cap_val_end := 0, pos_edge_captured := false },
    notify := none }

/-- What can happen to a running sensor: a GPIO edge interrupt, a wake-up of the GPIO
task, a capture callback, and a return of `xTaskNotifyWait` in the MCPWM task
(delivery of the pending notification, or a timeout when none is pending). -/
inductive Event where
  | gpio_edge (current_time : Nat) (gpio_level : Int)
  | gpio_wake
  | capture (cap_edge : mcpwm_capture_edge_t) (cap_value : Nat)
  | mcpwm_wake (current_time : Nat)
deriving DecidableEq, Repr

/-- One event applied to the system.  The ISR posts to the queue (dropped when ten
items wait); the GPIO task runs one iteration per queued item; a notification
overwrites the pending one and is consumed by the next return of the wait. -/
def sys_step (apb_freq : Nat) (s : cj202_sys) : Event → cj202_sys
  | .gpio_edge t l =>
    { s with dev := gpio_isr_handler s.dev t l, queued := min 10 (s.queued + 1) }
  | .gpio_wake =>
    if s.queued > 0 then { s with dev := cj202_gpio_task s.dev, queued := s.queued - 1 }
    else s
  | .capture e v =>
    { s with
      cap := (co2_sensor_capture_callback s.cap e v).1
      notify :=
        match (co2_sensor_capture_callback s.cap e v).2 with
        | some n => some n
        | none => s.notify }
  | .mcpwm_wake t =>
    { s with dev := cj202_mcpwm_task apb_freq s.dev s.notify t, notify := none }

/-- A sequence of events applied in order. -/
def sys_run (apb_freq : Nat) (s : cj202_sys) (evs : List Event) : cj202_sys :=
  evs.foldl (sys_step apb_freq) s

/-- Whether an event is a decode step that accepts its candidate: a GPIO task
iteration with `measurement_ready` set and the period in the window, or a delivered
notification whose sample passes the sanity check. -/
def accepts (apb_freq : Nat) (s : cj202_sys) : Event → Bool
  | .gpio_wake => decide (s.queued > 0) && s.dev.measurement_ready && gpio_period_valid s.dev
  | .mcpwm_wake t =>
    match s.notify with
    | some h =>
      mcpwm_sample_valid (ticks_to_ms apb_freq h)
        (ticks_to_ms apb_freq (mcpwm_period_ticks apb_freq s.dev t))
    | none => false
  | _ => false

/-- No event of the sequence is an accepting decode step. -/
def no_accept (apb_freq : Nat) : cj202_sys → List Event → Bool
  | _, [] => true
  | s, e :: es => !accepts apb_freq s e && no_accept apb_freq (sys_step apb_freq s e) es

/-! ## Sample environments and states -/

/-- Platform results with which every call of `cj202_gpio_init` succeeds. -/
def gpio_env_ok : gpio_env :=
  { queue_created := true, gpio_config_ret := ESP_OK, isr_service_ret := ESP_OK,
    isr_handler_add_ret := ESP_OK, task_created := true }

/-- Platform results with which every call of `cj202_mcpwm_init` succeeds. -/
def mcpwm_env_ok : mcpwm_env :=
  { new_timer_ret := ESP_OK, new_channel_ret := ESP_OK, register_ret := ESP_OK,
    channel_enable_ret := ESP_OK, timer_enable_ret := ESP_OK, timer_start_ret := ESP_OK,
    task_created := true }

/-- A configuration for the GPIO interrupt mode on pin 4. -/
def config_gpio : cj202_config_t :=
  { gpio_num := 4, mode := CJ202_MODE_GPIO_INTERRUPT, intr_alloc_flags := 0 }

/-- A configuration for the MCPWM capture mode on pin 4. -/
def config_mcpwm : cj202_config_t :=
  { gpio_num := 4, mode := CJ202_MODE_MCPWM_CAPTURE, intr_alloc_flags := 0 }

/-- The device a successful `cj202_init` leaves for `config_gpio`. -/
def dev_gpio_fresh : cj202_dev_t :=
  { dev_of_config config_gpio with gpio_evt_queue := true, gpio_task_handle := true }

/-- The device a successful `cj202_init` leaves for `config_mcpwm`. -/
def dev_mcpwm_fresh : cj202_dev_t :=
  { dev_of_config config_mcpwm with
    cap_timer := true, cap_chan := true, mcpwm_task_handle := true,
    first_measurement := true }

/-- A GPIO device with a staged high-time of 402 ms, a stale period of 1100 ms and a
published value of 777 ppm. -/
def dev_stale_period : cj202_dev_t :=
  { dev_gpio_fresh with
    measurement_ready := true, high_level_time_ms := 402, period_time_ms := 1100,
    co2_ppm := 777 }

/-- An MCPWM device after its first notification, delivered at tick time 0: the
baseline for the period exists (`first_measurement = false`, `last_capture_time = 0`),
no pair was accepted yet. -/
def dev_mcpwm_running : cj202_dev_t :=
  cj202_mcpwm_task 80000000 dev_mcpwm_fresh (some 16000000) 0

/-- A configuration whose mode is none of the enumerators. -/
def config_bad_mode : cj202_config_t :=
  { gpio_num := 4, mode := 7, intr_alloc_flags := 0 }

/-- Whether `cj202_init` has a case for the mode on the target. -/
def mode_supported (has_mcpwm : Bool) (mode : Nat) : Bool :=
  decide (mode = CJ202_MODE_GPIO_INTERRUPT) ||
    (has_mcpwm && decide (mode = CJ202_MODE_MCPWM_CAPTURE))

/-- Spec-side conversion of a tick count to whole milliseconds: exact division by
the number of ticks per millisecond, truncated. -/
def ticks_to_whole_ms (apb_freq ticks : Nat) : Nat := ticks * 1000 / apb_freq

/-! ## Traces of the edge-interrupt variant -/

/-- A trace of the GPIO variant: edge interrupts whose timestamps are 64-bit values
and do not decrease (starting from `last`), interleaved with wake-ups of the GPIO
task. -/
def gpio_trace (last : Nat) : List Event → Bool
  | [] => true
  | .gpio_edge t _ :: es => decide (last ≤ t) && decide (t < 2 ^ 64) && gpio_trace t es
  | .gpio_wake :: es => gpio_trace last es
  | _ :: _ => false

/-- Timestamp of the last edge of a trace (`last` when it has none). -/
def trace_last (last : Nat) : List Event → Nat
  | [] => last
  | .gpio_edge t _ :: es => trace_last t es
  | _ :: es => trace_last last es

/-- Whether an event is a rising edge (`gpio_get_level` returned 1). -/
def is_rising : Event → Bool
  | .gpio_edge _ l => decide (l = 1)
  | _ => false

/-- The recorded timestamps are not later than the last edge, and a raised
`measurement_ready` comes with a recorded rising and a recorded falling timestamp. -/
def edges_recorded (dev : cj202_dev_t) (last : Nat) : Prop :=
  dev.rising_time ≤ last ∧ dev.falling_time ≤ last ∧
    (dev.measurement_ready = true → 0 < dev.rising_time ∧ 0 < dev.falling_time)

end CJ202

namespace CJ202

/-! ## Rounding lemmas -/

namespace F32

theorem blen_pos (f n : Nat) (hn : 0 < n) (hf : n < 2 ^ f) : 0 < blen f n := by
  cases f with
  | zero => simp at hf; omega
  | succ f =>
    have hne : n ≠ 0 := by omega
    simp [blen, hne]

theorem blen_bounds (f : Nat) : ∀ n : Nat, 0 < n → n < 2 ^ f →
    2 ^ (blen f n - 1) ≤ n ∧ n < 2 ^ blen f n := by
  induction f with
  | zero => intro n hn hf; simp at hf; omega
  | succ f ih =>
    intro n hn hf
    have hne : n ≠ 0 := by omega
    simp only [blen, hne, if_false, Nat.add_sub_cancel]
    by_cases h1 : n / 2 = 0
    · have hn1 : n = 1 := by omega
      subst hn1
      cases f with
      | zero => simp [blen]
      | succ f => simp [blen]
    · have hpos : 0 < n / 2 := Nat.pos_of_ne_zero h1
      have hlt : n / 2 < 2 ^ f := by
        rw [Nat.div_lt_iff_lt_mul (by norm_num)]
        rw [pow_succ] at hf
        exact hf
      obtain ⟨h2, h3⟩ := ih (n / 2) hpos hlt
      have hb := blen_pos f (n / 2) hpos hlt
      constructor
      · have : 2 ^ blen f (n / 2) = 2 ^ (blen f (n / 2) - 1) * 2 := by
          rw [← pow_succ]; congr 1; omega
        rw [this]; omega
      · rw [pow_succ]; omega

theorem bitlen_bounds (n : Nat) (hn : 0 < n) :
    0 < blen n n ∧ 2 ^ (blen n n - 1) ≤ n ∧ n < 2 ^ blen n n :=
  ⟨blen_pos n n hn (Nat.lt_two_pow n), blen_bounds n n hn (Nat.lt_two_pow n)⟩

theorem le_rne (n d K : Nat) (hd : 0 < d) (h : K * d ≤ n) : K ≤ rne n d := by
  have hK : K ≤ n / d := (Nat.le_div_iff_mul_le hd).2 h
  unfold rne
  split_ifs <;> omega

theorem rne_le (n d K : Nat) (hd : 0 < d) (h : n ≤ K * d) : rne n d ≤ K := by
  have hmod := Nat.mod_lt n hd
  have hdiv := Nat.div_add_mod n d
  have hq : n / d ≤ K := by
    calc n / d ≤ K * d / d := Nat.div_le_div_right h
      _ = K := Nat.mul_div_cancel K hd
  rcases Nat.lt_or_ge (n / d) K with hlt | hge
  · unfold rne
    split_ifs <;> omega
  · have hKq : K = n / d := by omega
    have hr : n % d = 0 := by
      have : d * (n / d) + n % d ≤ (n / d) * d := by rw [hdiv, ← hKq]; exact h
      rw [Nat.mul_comm] at this
      omega
    unfold rne
    rw [hr]
    simp [hd]
    omega

theorem two_zpow_split (z : ℤ) :
    (2 : ℚ) ^ z = (2 : ℚ) ^ z.toNat / (2 : ℚ) ^ (-z).toNat := by
  rcases le_total 0 z with h | h
  · have h1 : (-z).toNat = 0 := by omega
    rw [h1, pow_zero, div_one, ← zpow_natCast, Int.toNat_of_nonneg h]
  · have h1 : z.toNat = 0 := by omega
    have h2 : ((-z).toNat : ℤ) = -z := Int.toNat_of_nonneg (by omega)
    rw [h1, pow_zero, ← zpow_natCast, h2, zpow_neg, one_div, inv_inv]

theorem bitlen_rat (n : Nat) (hn : 0 < n) :
    (2 : ℚ) ^ ((blen n n : ℤ) - 1) ≤ n ∧ (n : ℚ) < (2 : ℚ) ^ (blen n n : ℤ) := by
  obtain ⟨h0, h1, h2⟩ := bitlen_bounds n hn
  have e1 : ((blen n n : ℤ) - 1) = ((blen n n - 1 : ℕ) : ℤ) := by omega
  constructor
  · rw [e1, zpow_natCast]
    exact_mod_cast h1
  · rw [zpow_natCast]
    exact_mod_cast h2

theorem test_iff (n d : Nat) (k : ℤ) :
    d * 2 ^ k.toNat ≤ n * 2 ^ (-k).toNat ↔ (d : ℚ) * (2 : ℚ) ^ k ≤ n := by
  have hp : (0 : ℚ) < (2 : ℚ) ^ (-k).toNat := by positivity
  rw [two_zpow_split k, ← mul_div_assoc, div_le_iff₀ hp]
  constructor
  · intro h
    exact_mod_cast h
  · intro h
    exact_mod_cast h

theorem ilog2_spec (n d : Nat) (hn : 0 < n) (hd : 0 < d) :
    (d : ℚ) * (2 : ℚ) ^ ilog2 n d ≤ n ∧ (n : ℚ) < d * (2 : ℚ) ^ (ilog2 n d + 1) := by
  obtain ⟨n1, n2⟩ := bitlen_rat n hn
  obtain ⟨d1, d2⟩ := bitlen_rat d hd
  have hdq : (0 : ℚ) < d := by exact_mod_cast hd
  have e0 : ((blen d d : ℤ) - (blen n n : ℤ)) = -((blen n n : ℤ) - (blen d d : ℤ)) := by ring
  unfold ilog2
  rw [e0]
  split_ifs with h <;> rw [test_iff] at h
  · refine ⟨h, ?_⟩
    have e1 : (2 : ℚ) ^ (blen n n : ℤ)
        = (2 : ℚ) ^ ((blen d d : ℤ) - 1) * (2 : ℚ) ^ ((blen n n : ℤ) - (blen d d : ℤ) + 1) := by
      rw [← zpow_add₀ (by norm_num)]
      congr 1
      ring
    calc (n : ℚ) < (2 : ℚ) ^ (blen n n : ℤ) := n2
      _ = (2 : ℚ) ^ ((blen d d : ℤ) - 1) * (2 : ℚ) ^ ((blen n n : ℤ) - (blen d d : ℤ) + 1) := e1
      _ ≤ d * (2 : ℚ) ^ ((blen n n : ℤ) - (blen d d : ℤ) + 1) :=
        mul_le_mul_of_nonneg_right d1 (by positivity)
  · constructor
    · have e1 : (2 : ℚ) ^ ((blen n n : ℤ) - 1)
          = (2 : ℚ) ^ (blen d d : ℤ) * (2 : ℚ) ^ ((blen n n : ℤ) - (blen d d : ℤ) - 1) := by
        rw [← zpow_add₀ (by norm_num)]
        congr 1
        ring
      calc (d : ℚ) * (2 : ℚ) ^ ((blen n n : ℤ) - (blen d d : ℤ) - 1)
          ≤ (2 : ℚ) ^ (blen d d : ℤ) * (2 : ℚ) ^ ((blen n n : ℤ) - (blen d d : ℤ) - 1) :=
            mul_le_mul_of_nonneg_right d2.le (by positivity)
        _ = (2 : ℚ) ^ ((blen n n : ℤ) - 1) := e1.symm
        _ ≤ n := n1
    · have e2 : ((blen n n : ℤ) - (blen d d : ℤ) - 1 + 1) = (blen n n : ℤ) - (blen d d : ℤ) := by
        ring
      rw [e2]
      exact lt_of_not_le h

theorem scaled_spec (n d : Nat) (hn : 0 < n) (hd : 0 < d) :
    0 < d * 2 ^ (ilog2 n d - 23).toNat ∧
    2 ^ 23 * (d * 2 ^ (ilog2 n d - 23).toNat) ≤ n * 2 ^ (23 - ilog2 n d).toNat ∧
    n * 2 ^ (23 - ilog2 n d).toNat < 2 ^ 24 * (d * 2 ^ (ilog2 n d - 23).toNat) ∧
    ((n * 2 ^ (23 - ilog2 n d).toNat : ℕ) : ℚ) / ((d * 2 ^ (ilog2 n d - 23).toNat : ℕ) : ℚ)
      = (n : ℚ) / d * (2 : ℚ) ^ (23 - ilog2 n d) := by
  obtain ⟨h1, h2⟩ := ilog2_spec n d hn hd
  have hdq : (0 : ℚ) < d := by exact_mod_cast hd
  have e0 : ilog2 n d - 23 = -(23 - ilog2 n d) := by ring
  have hz := two_zpow_split (23 - ilog2 n d)
  rw [e0]
  generalize ilog2 n d = L at *
  generalize (23 - L).toNat = a at *
  generalize (-(23 - L)).toNat = b at *
  have ha : (0 : ℚ) < (2 : ℚ) ^ a := by positivity
  have hb : (0 : ℚ) < (2 : ℚ) ^ b := by positivity
  have hL : (0 : ℚ) < (2 : ℚ) ^ L := by positivity
  have hz2 : (2 : ℚ) ^ a = (2 : ℚ) ^ (23 - L) * (2 : ℚ) ^ b := by
    rw [hz]; field_simp
  have e23 : (2 : ℚ) ^ L * (2 : ℚ) ^ (23 - L) = 2 ^ 23 := by
    rw [← zpow_add₀ (by norm_num)]
    have : L + (23 - L) = ((23 : ℕ) : ℤ) := by push_cast; ring
    rw [this, zpow_natCast]
  have e24 : (2 : ℚ) ^ (L + 1) * (2 : ℚ) ^ (23 - L) = 2 ^ 24 := by
    rw [← zpow_add₀ (by norm_num)]
    have : L + 1 + (23 - L) = ((24 : ℕ) : ℤ) := by push_cast; ring
    rw [this, zpow_natCast]
  have hzpos : (0 : ℚ) < (2 : ℚ) ^ (23 - L) := by positivity
  refine ⟨by positivity, ?_, ?_, ?_⟩
  · have : (2 : ℚ) ^ 23 * ((d : ℚ) * (2 : ℚ) ^ b) ≤ (n : ℚ) * (2 : ℚ) ^ a := by
      rw [hz2, ← e23]
      have := mul_le_mul_of_nonneg_right h1 (mul_pos hzpos hb).le
      calc (2 : ℚ) ^ L * (2 : ℚ) ^ (23 - L) * ((d : ℚ) * (2 : ℚ) ^ b)
          = (d : ℚ) * (2 : ℚ) ^ L * ((2 : ℚ) ^ (23 - L) * (2 : ℚ) ^ b) := by ring
        _ ≤ (n : ℚ) * ((2 : ℚ) ^ (23 - L) * (2 : ℚ) ^ b) := this
    exact_mod_cast this
  · have : (n : ℚ) * (2 : ℚ) ^ a < (2 : ℚ) ^ 24 * ((d : ℚ) * (2 : ℚ) ^ b) := by
      rw [hz2, ← e24]
      have := mul_lt_mul_of_pos_right h2 (mul_pos hzpos hb)
      calc (n : ℚ) * ((2 : ℚ) ^ (23 - L) * (2 : ℚ) ^ b)
          < (d : ℚ) * (2 : ℚ) ^ (L + 1) * ((2 : ℚ) ^ (23 - L) * (2 : ℚ) ^ b) := this
        _ = (2 : ℚ) ^ (L + 1) * (2 : ℚ) ^ (23 - L) * ((d : ℚ) * (2 : ℚ) ^ b) := by ring
    exact_mod_cast this
  · push_cast
    rw [hz2]
    field_simp
    ring

theorem roundPos_toRat (n d : Nat) (s : ℤ) :
    toRat (roundPos n d s)
      = (rne (n * 2 ^ (23 - ilog2 n d).toNat) (d * 2 ^ (ilog2 n d - 23).toNat) : ℚ)
        * (2 : ℚ) ^ (s + ilog2 n d - 23) := by
  simp [toRat, roundPos]

theorem exact_scaled (n d : Nat) (s : ℤ) (hn : 0 < n) (hd : 0 < d) :
    (n : ℚ) / d * (2 : ℚ) ^ s
      = ((n * 2 ^ (23 - ilog2 n d).toNat : ℕ) : ℚ) / ((d * 2 ^ (ilog2 n d - 23).toNat : ℕ) : ℚ)
        * (2 : ℚ) ^ (s + ilog2 n d - 23) := by
  rw [(scaled_spec n d hn hd).2.2.2, mul_assoc, ← zpow_add₀ (by norm_num)]
  congr 2
  ring

theorem zpow_shift (j E : ℤ) (hEj : E ≤ j) :
    (2 : ℚ) ^ j = ((2 ^ (j - E).toNat : ℕ) : ℚ) * (2 : ℚ) ^ E := by
  have e1 : ((j - E).toNat : ℤ) = j - E := Int.toNat_of_nonneg (by omega)
  push_cast
  rw [← zpow_natCast, e1, ← zpow_add₀ (by norm_num)]
  congr 1
  ring

theorem grid_lb (N D : ℕ) (E : ℤ) (hD : 0 < D) (h23 : 2 ^ 23 * D ≤ N) (k : ℕ) (j : ℤ)
    (hk : k < 2 ^ 24) (h : (k : ℚ) * (2 : ℚ) ^ j ≤ (N : ℚ) / D * (2 : ℚ) ^ E) :
    (k : ℚ) * (2 : ℚ) ^ j ≤ (rne N D : ℚ) * (2 : ℚ) ^ E := by
  have hDq : (0 : ℚ) < D := by exact_mod_cast hD
  have hE : (0 : ℚ) < (2 : ℚ) ^ E := by positivity
  rcases le_or_lt E j with hEj | hjE
  · rw [zpow_shift j E hEj, ← mul_assoc] at h ⊢
    have h1 := le_of_mul_le_mul_right h hE
    rw [le_div_iff₀ hDq] at h1
    have h2 : k * 2 ^ (j - E).toNat * D ≤ N := by exact_mod_cast h1
    have h3 := le_rne N D _ hD h2
    have h4 : ((k * 2 ^ (j - E).toNat : ℕ) : ℚ) ≤ (rne N D : ℚ) := by exact_mod_cast h3
    rw [Nat.cast_mul] at h4
    exact mul_le_mul_of_nonneg_right h4 hE.le
  · have h3 : ((2 ^ 23 : ℕ) : ℚ) ≤ (rne N D : ℚ) := by exact_mod_cast le_rne N D _ hD h23
    have hkq : (k : ℚ) ≤ 2 ^ 24 := by exact_mod_cast hk.le
    have hj : (2 : ℚ) ^ (j + 1) ≤ (2 : ℚ) ^ E := zpow_le_zpow_right₀ (by norm_num) (by omega)
    have hj1 : (2 : ℚ) ^ (j + 1) = 2 * (2 : ℚ) ^ j := by
      rw [zpow_add₀ (by norm_num), zpow_one, mul_comm]
    have hjp : (0 : ℚ) < (2 : ℚ) ^ j := by positivity
    calc (k : ℚ) * (2 : ℚ) ^ j ≤ 2 ^ 24 * (2 : ℚ) ^ j := mul_le_mul_of_nonneg_right hkq hjp.le
      _ = ((2 ^ 23 : ℕ) : ℚ) * (2 * (2 : ℚ) ^ j) := by push_cast; ring
      _ ≤ ((2 ^ 23 : ℕ) : ℚ) * (2 : ℚ) ^ E := by
        rw [← hj1]; exact mul_le_mul_of_nonneg_left hj (by positivity)
      _ ≤ (rne N D : ℚ) * (2 : ℚ) ^ E := mul_le_mul_of_nonneg_right h3 hE.le

theorem grid_ub (N D : ℕ) (E : ℤ) (hD : 0 < D) (h23 : 2 ^ 23 * D ≤ N) (k : ℕ) (j : ℤ)
    (hk : k < 2 ^ 24) (h : (N : ℚ) / D * (2 : ℚ) ^ E ≤ (k : ℚ) * (2 : ℚ) ^ j) :
    (rne N D : ℚ) * (2 : ℚ) ^ E ≤ (k : ℚ) * (2 : ℚ) ^ j := by
  have hDq : (0 : ℚ) < D := by exact_mod_cast hD
  have hE : (0 : ℚ) < (2 : ℚ) ^ E := by positivity
  have hjp : (0 : ℚ) < (2 : ℚ) ^ j := by positivity
  have hEj : E ≤ j := by
    have h1 : ((2 ^ 23 : ℕ) : ℚ) ≤ (N : ℚ) / D := by
      rw [le_div_iff₀ hDq]; exact_mod_cast h23
    have hkq : (k : ℚ) < 2 ^ 24 := by exact_mod_cast hk
    have h2 : (2 : ℚ) ^ 23 * (2 : ℚ) ^ E < 2 ^ 24 * (2 : ℚ) ^ j := by
      calc (2 : ℚ) ^ 23 * (2 : ℚ) ^ E ≤ (N : ℚ) / D * (2 : ℚ) ^ E := by
            push_cast at h1; exact mul_le_mul_of_nonneg_right h1 hE.le
        _ ≤ (k : ℚ) * (2 : ℚ) ^ j := h
        _ < 2 ^ 24 * (2 : ℚ) ^ j := mul_lt_mul_of_pos_right hkq hjp
    have h3 : (2 : ℚ) ^ (E + 23) < (2 : ℚ) ^ (j + 24) := by
      have a1 : (2 : ℚ) ^ (E + 23) = (2 : ℚ) ^ 23 * (2 : ℚ) ^ E := by
        rw [zpow_add₀ (by norm_num), mul_comm]; norm_cast
      have a2 : (2 : ℚ) ^ (j + 24) = (2 : ℚ) ^ 24 * (2 : ℚ) ^ j := by
        rw [zpow_add₀ (by norm_num), mul_comm]; norm_cast
      rw [a1, a2]; exact h2
    have h4 := (zpow_lt_zpow_iff_right₀ (by norm_num : (1 : ℚ) < 2)).1 h3
    omega
  rw [zpow_shift j E hEj, ← mul_assoc] at h ⊢
  have h1 := le_of_mul_le_mul_right h hE
  rw [div_le_iff₀ hDq] at h1
  have h2 : N ≤ k * 2 ^ (j - E).toNat * D := by exact_mod_cast h1
  have h3 := rne_le N D _ hD h2
  have h4 : (rne N D : ℚ) ≤ ((k * 2 ^ (j - E).toNat : ℕ) : ℚ) := by exact_mod_cast h3
  rw [Nat.cast_mul] at h4
  exact mul_le_mul_of_nonneg_right h4 hE.le

theorem roundPos_lb (n d : Nat) (s : ℤ) (hn : 0 < n) (hd : 0 < d) (k : ℕ) (j : ℤ)
    (hk : k < 2 ^ 24) (h : (k : ℚ) * (2 : ℚ) ^ j ≤ (n : ℚ) / d * (2 : ℚ) ^ s) :
    (k : ℚ) * (2 : ℚ) ^ j ≤ toRat (roundPos n d s) := by
  obtain ⟨hD, h23, -, -⟩ := scaled_spec n d hn hd
  rw [roundPos_toRat]
  rw [exact_scaled n d s hn hd] at h
  exact grid_lb _ _ _ hD h23 k j hk h

theorem roundPos_ub (n d : Nat) (s : ℤ) (hn : 0 < n) (hd : 0 < d) (k : ℕ) (j : ℤ)
    (hk : k < 2 ^ 24) (h : (n : ℚ) / d * (2 : ℚ) ^ s ≤ (k : ℚ) * (2 : ℚ) ^ j) :
    toRat (roundPos n d s) ≤ (k : ℚ) * (2 : ℚ) ^ j := by
  obtain ⟨hD, h23, -, -⟩ := scaled_spec n d hn hd
  rw [roundPos_toRat]
  rw [exact_scaled n d s hn hd] at h
  exact grid_ub _ _ _ hD h23 k j hk h

theorem roundPos_pos (n d : Nat) (s : ℤ) (hn : 0 < n) (hd : 0 < d) :
    0 < (roundPos n d s).m := by
  obtain ⟨hD, h23, -, -⟩ := scaled_spec n d hn hd
  have := le_rne _ _ _ hD h23
  simp only [roundPos]
  have h2 : 0 < rne (n * 2 ^ (23 - ilog2 n d).toNat) (d * 2 ^ (ilog2 n d - 23).toNat) := by
    have : 0 < 2 ^ 23 := by norm_num
    omega
  exact_mod_cast h2

theorem round_lb (n : ℤ) (d : ℕ) (s : ℤ) (hd : 0 < d) (k : ℕ) (j : ℤ) (hk : k < 2 ^ 24)
    (h : (k : ℚ) * (2 : ℚ) ^ j ≤ (n : ℚ) / d * (2 : ℚ) ^ s) :
    (k : ℚ) * (2 : ℚ) ^ j ≤ toRat (round n d s) := by
  have hj : (0 : ℚ) < (2 : ℚ) ^ j := by positivity
  have hs : (0 : ℚ) < (2 : ℚ) ^ s := by positivity
  have hdq : (0 : ℚ) < d := by exact_mod_cast hd
  unfold round
  split_ifs with h0 hpos
  · subst h0
    simp only [Int.cast_zero, zero_div, zero_mul] at h
    simpa [toRat] using h
  · have e1 : ((n.toNat : ℕ) : ℚ) = (n : ℚ) := by
      have : ((n.toNat : ℕ) : ℤ) = n := Int.toNat_of_nonneg hpos.le
      exact_mod_cast this
    apply roundPos_lb n.toNat d s (by omega) hd k j hk
    rw [e1]; exact h
  · exfalso
    have hneg : (n : ℚ) < 0 := by
      have : n < 0 := by omega
      exact_mod_cast this
    have h1 : (n : ℚ) / d * (2 : ℚ) ^ s < 0 :=
      mul_neg_of_neg_of_pos (div_neg_of_neg_of_pos hneg hdq) hs
    have h2 : (0 : ℚ) ≤ (k : ℚ) * (2 : ℚ) ^ j := by positivity
    linarith

theorem round_ub (n : ℤ) (d : ℕ) (s : ℤ) (hd : 0 < d) (k : ℕ) (j : ℤ) (hk : k < 2 ^ 24)
    (h : (n : ℚ) / d * (2 : ℚ) ^ s ≤ (k : ℚ) * (2 : ℚ) ^ j) :
    toRat (round n d s) ≤ (k : ℚ) * (2 : ℚ) ^ j := by
  have h2 : (0 : ℚ) ≤ (k : ℚ) * (2 : ℚ) ^ j := by positivity
  unfold round
  split_ifs with h0 hpos
  · simpa [toRat] using h2
  · have e1 : ((n.toNat : ℕ) : ℚ) = (n : ℚ) := by
      have : ((n.toNat : ℕ) : ℤ) = n := Int.toNat_of_nonneg hpos.le
      exact_mod_cast this
    apply roundPos_ub n.toNat d s (by omega) hd k j hk
    rw [e1]; exact h
  · have hp := roundPos_pos (-n).toNat d s (by omega) hd
    have hq : (0 : ℚ) < ((roundPos (-n).toNat d s).m : ℚ) := by exact_mod_cast hp
    have he : (0 : ℚ) < (2 : ℚ) ^ (roundPos (-n).toNat d s).e := by positivity
    have : toRat { m := -(roundPos (-n).toNat d s).m, e := (roundPos (-n).toNat d s).e } ≤ 0 := by
      simp only [toRat, Int.cast_neg, neg_mul, Left.neg_nonpos_iff]
      positivity
    linarith

theorem round_exact (n : ℤ) (d : ℕ) (s : ℤ) (hd : 0 < d) (k : ℕ) (j : ℤ) (hk : k < 2 ^ 24)
    (h : (n : ℚ) / d * (2 : ℚ) ^ s = (k : ℚ) * (2 : ℚ) ^ j) :
    toRat (round n d s) = (k : ℚ) * (2 : ℚ) ^ j :=
  le_antisymm (round_ub n d s hd k j hk h.le) (round_lb n d s hd k j hk h.ge)

theorem toRat_lit (n : ℕ) : toRat (lit n) = n := by simp [toRat, lit]

theorem ofNat_val (n : ℕ) : ((n : ℤ) : ℚ) / ((1 : ℕ) : ℚ) * (2 : ℚ) ^ (0 : ℤ) = (n : ℚ) := by simp

theorem mul_val (a b : F32) :
    ((a.m * b.m : ℤ) : ℚ) / ((1 : ℕ) : ℚ) * (2 : ℚ) ^ (a.e + b.e) = toRat a * toRat b := by
  simp only [toRat, Int.cast_mul, Nat.cast_one, div_one, zpow_add₀ (by norm_num : (2 : ℚ) ≠ 0)]
  ring

theorem sub_val (a b : F32) :
    ((a.m * 2 ^ (a.e - min a.e b.e).toNat - b.m * 2 ^ (b.e - min a.e b.e).toNat : ℤ) : ℚ)
        / ((1 : ℕ) : ℚ) * (2 : ℚ) ^ (min a.e b.e) = toRat a - toRat b := by
  have ha := zpow_shift a.e (min a.e b.e) (min_le_left _ _)
  have hb := zpow_shift b.e (min a.e b.e) (min_le_right _ _)
  simp only [toRat]
  rw [ha, hb]
  push_cast
  ring

theorem div_val (a b : F32) (hb : 0 < b.m) :
    ((a.m * Int.sign b.m : ℤ) : ℚ) / ((b.m.natAbs : ℕ) : ℚ) * (2 : ℚ) ^ (a.e - b.e)
      = toRat a / toRat b := by
  have hs : Int.sign b.m = 1 := Int.sign_eq_one_of_pos hb
  have hn : ((b.m.natAbs : ℕ) : ℚ) = (b.m : ℚ) := by
    rw [Nat.cast_natAbs, abs_of_nonneg hb.le]
  have hbq : (b.m : ℚ) ≠ 0 := by
    have : b.m ≠ 0 := by omega
    exact_mod_cast this
  have h2 : (2 : ℚ) ^ b.e ≠ 0 := by positivity
  simp only [toRat]
  rw [hs, hn, zpow_sub₀ (by norm_num : (2 : ℚ) ≠ 0)]
  push_cast
  field_simp

theorem toRat_pos_iff (x : F32) : 0 < toRat x ↔ 0 < x.m := by
  have he : (0 : ℚ) < (2 : ℚ) ^ x.e := by positivity
  unfold toRat
  constructor
  · intro h
    have := (pos_iff_pos_of_mul_pos h).2 he
    exact_mod_cast this
  · intro h
    have : (0 : ℚ) < (x.m : ℚ) := by exact_mod_cast h
    positivity

theorem aligned (a b : F32) :
    toRat a = ((a.m * 2 ^ (a.e - min a.e b.e).toNat : ℤ) : ℚ) * (2 : ℚ) ^ (min a.e b.e) := by
  have ha := zpow_shift a.e (min a.e b.e) (min_le_left _ _)
  simp only [toRat]
  rw [ha]
  push_cast
  ring

theorem aligned_right (a b : F32) :
    toRat b = ((b.m * 2 ^ (b.e - min a.e b.e).toNat : ℤ) : ℚ) * (2 : ℚ) ^ (min a.e b.e) := by
  have hb := zpow_shift b.e (min a.e b.e) (min_le_right _ _)
  simp only [toRat]
  rw [hb]
  push_cast
  ring

theorem lt_iff (a b : F32) : lt a b = true ↔ toRat a < toRat b := by
  have he : (0 : ℚ) < (2 : ℚ) ^ (min a.e b.e) := by positivity
  rw [aligned a b, aligned_right a b, mul_lt_mul_right he]
  simp only [lt, decide_eq_true_eq]
  exact Int.cast_lt.symm

theorem le_iff (a b : F32) : le a b = true ↔ toRat a ≤ toRat b := by
  have he : (0 : ℚ) < (2 : ℚ) ^ (min a.e b.e) := by positivity
  rw [aligned a b, aligned_right a b, mul_le_mul_right he]
  simp only [le, decide_eq_true_eq]
  exact Int.cast_le.symm

theorem toU32_le (x : F32) (N : ℕ) (h : toRat x ≤ N) : toU32 x ≤ N := by
  unfold toU32
  split_ifs with hm he
  · exact Nat.zero_le _
  · apply le_trans (min_le_left _ _)
    have e1 : ((x.m.toNat : ℕ) : ℚ) = (x.m : ℚ) := by
      have : ((x.m.toNat : ℕ) : ℤ) = x.m := Int.toNat_of_nonneg (by omega)
      exact_mod_cast this
    have e2 : (2 : ℚ) ^ x.e = (2 : ℚ) ^ x.e.toNat := by
      rw [← zpow_natCast, Int.toNat_of_nonneg he]
    have : ((x.m.toNat * 2 ^ x.e.toNat : ℕ) : ℚ) ≤ (N : ℚ) := by
      push_cast
      rw [e1, ← e2]
      exact h
    exact_mod_cast this
  · apply le_trans (min_le_left _ _)
    have e1 : ((x.m.toNat : ℕ) : ℚ) = (x.m : ℚ) := by
      have : ((x.m.toNat : ℕ) : ℤ) = x.m := Int.toNat_of_nonneg (by omega)
      exact_mod_cast this
    have e2 : (2 : ℚ) ^ x.e = ((2 : ℚ) ^ (-x.e).toNat)⁻¹ := by
      rw [← zpow_natCast, Int.toNat_of_nonneg (by omega), zpow_neg, inv_inv]
    have hp : (0 : ℚ) < (2 : ℚ) ^ (-x.e).toNat := by positivity
    have h3 : (x.m : ℚ) ≤ (N : ℚ) * (2 : ℚ) ^ (-x.e).toNat := by
      unfold toRat at h
      rw [e2, ← div_eq_mul_inv, div_le_iff₀ hp] at h
      exact h
    have h4 : x.m.toNat ≤ N * 2 ^ (-x.e).toNat := by
      rw [← e1] at h3
      exact_mod_cast h3
    calc x.m.toNat / 2 ^ (-x.e).toNat ≤ N * 2 ^ (-x.e).toNat / 2 ^ (-x.e).toNat :=
          Nat.div_le_div_right h4
      _ = N := Nat.mul_div_cancel _ (by positivity)

theorem le_toU32 (x : F32) (N : ℕ) (hN : N < 2 ^ 32) (h : (N : ℚ) ≤ toRat x) :
    N ≤ toU32 x := by
  rcases Nat.eq_zero_or_pos N with h0 | hpos
  · omega
  have hNq : (0 : ℚ) < (N : ℚ) := by exact_mod_cast hpos
  have hm : 0 < x.m := (toRat_pos_iff x).1 (lt_of_lt_of_le hNq h)
  have e1 : ((x.m.toNat : ℕ) : ℚ) = (x.m : ℚ) := by
    have : ((x.m.toNat : ℕ) : ℤ) = x.m := Int.toNat_of_nonneg hm.le
    exact_mod_cast this
  unfold toU32
  rw [if_neg (by omega)]
  apply le_min _ (by omega)
  split_ifs with he
  · have e2 : (2 : ℚ) ^ x.e = (2 : ℚ) ^ x.e.toNat := by
      rw [← zpow_natCast, Int.toNat_of_nonneg he]
    have : (N : ℚ) ≤ ((x.m.toNat * 2 ^ x.e.toNat : ℕ) : ℚ) := by
      push_cast
      rw [e1, ← e2]
      exact h
    exact_mod_cast this
  · have e2 : (2 : ℚ) ^ x.e = ((2 : ℚ) ^ (-x.e).toNat)⁻¹ := by
      rw [← zpow_natCast, Int.toNat_of_nonneg (by omega), zpow_neg, inv_inv]
    have hp : (0 : ℚ) < (2 : ℚ) ^ (-x.e).toNat := by positivity
    have h3 : (N : ℚ) * (2 : ℚ) ^ (-x.e).toNat ≤ (x.m : ℚ) := by
      unfold toRat at h
      rw [e2, ← div_eq_mul_inv, le_div_iff₀ hp] at h
      exact h
    have h4 : N * 2 ^ (-x.e).toNat ≤ x.m.toNat := by
      rw [← e1] at h3
      exact_mod_cast h3
    exact (Nat.le_div_iff_mul_le (by positivity)).2 h4

theorem toU32_floor (x : F32) (n : ℕ) (hn : n < 2 ^ 32) (h1 : (n : ℚ) ≤ toRat x)
    (h2 : toRat x < (n : ℚ) + 1) : toU32 x = n := by
  apply le_antisymm _ (le_toU32 x n hn h1)
  by_contra hlt
  push_neg at hlt
  have h3 : n + 1 ≤ toU32 x := hlt
  have hcap : toU32 x ≤ 2 ^ 32 - 1 := by
    unfold toU32
    split_ifs
    · exact Nat.zero_le _
    · exact min_le_right _ _
    · exact min_le_right _ _
  -- the value one above `n` would have to lie below the float
  rcases Nat.lt_or_ge (n + 1) (2 ^ 32) with hlt2 | hge2
  · have hm : 0 < x.m := by
      by_contra hc
      have : toU32 x = 0 := by unfold toU32; rw [if_pos (by omega)]
      omega
    have e1 : ((x.m.toNat : ℕ) : ℚ) = (x.m : ℚ) := by
      have : ((x.m.toNat : ℕ) : ℤ) = x.m := Int.toNat_of_nonneg hm.le
      exact_mod_cast this
    have h4 : ((n + 1 : ℕ) : ℚ) ≤ toRat x := by
      unfold toU32 at h3
      rw [if_neg (by omega)] at h3
      have h5 := le_trans h3 (min_le_left _ _)
      split_ifs at h5 with he
      · have e2 : (2 : ℚ) ^ x.e = (2 : ℚ) ^ x.e.toNat := by
          rw [← zpow_natCast, Int.toNat_of_nonneg he]
        have : ((n + 1 : ℕ) : ℚ) ≤ ((x.m.toNat * 2 ^ x.e.toNat : ℕ) : ℚ) := by exact_mod_cast h5
        push_cast at this
        rw [e1, ← e2] at this
        unfold toRat
        push_cast
        exact this
      · have e2 : (2 : ℚ) ^ x.e = ((2 : ℚ) ^ (-x.e).toNat)⁻¹ := by
          rw [← zpow_natCast, Int.toNat_of_nonneg (by omega), zpow_neg, inv_inv]
        have hp : (0 : ℚ) < (2 : ℚ) ^ (-x.e).toNat := by positivity
        have h6 := (Nat.le_div_iff_mul_le (by positivity)).1 h5
        have h7 : ((n + 1 : ℕ) : ℚ) * (2 : ℚ) ^ (-x.e).toNat ≤ (x.m : ℚ) := by
          rw [← e1]
          exact_mod_cast h6
        unfold toRat
        rw [e2, ← div_eq_mul_inv, le_div_iff₀ hp]
        exact h7
    push_cast at h4
    linarith
  · omega

theorem natGrid (k : ℕ) : (k : ℚ) * (2 : ℚ) ^ (0 : ℤ) = k := by simp

theorem ofNat_lb (n k : ℕ) (hk : k < 2 ^ 24) (h : k ≤ n) : (k : ℚ) ≤ toRat (ofNat n) := by
  have := round_lb n 1 0 one_pos k 0 hk (by rw [ofNat_val, natGrid]; exact_mod_cast h)
  rwa [natGrid] at this

theorem ofNat_exact (n : ℕ) (hn : n < 2 ^ 24) : toRat (ofNat n) = n := by
  have := round_exact n 1 0 one_pos n 0 hn (by rw [ofNat_val, natGrid])
  rwa [natGrid] at this

theorem sub_lb (a b : F32) (k : ℕ) (j : ℤ) (hk : k < 2 ^ 24)
    (h : (k : ℚ) * (2 : ℚ) ^ j ≤ toRat a - toRat b) :
    (k : ℚ) * (2 : ℚ) ^ j ≤ toRat (sub a b) :=
  round_lb _ 1 _ one_pos k j hk (by rw [sub_val]; exact h)

theorem sub_ub (a b : F32) (k : ℕ) (j : ℤ) (hk : k < 2 ^ 24)
    (h : toRat a - toRat b ≤ (k : ℚ) * (2 : ℚ) ^ j) :
    toRat (sub a b) ≤ (k : ℚ) * (2 : ℚ) ^ j :=
  round_ub _ 1 _ one_pos k j hk (by rw [sub_val]; exact h)

theorem mul_lb (a b : F32) (k : ℕ) (j : ℤ) (hk : k < 2 ^ 24)
    (h : (k : ℚ) * (2 : ℚ) ^ j ≤ toRat a * toRat b) :
    (k : ℚ) * (2 : ℚ) ^ j ≤ toRat (mul a b) :=
  round_lb _ 1 _ one_pos k j hk (by rw [mul_val]; exact h)

theorem mul_ub (a b : F32) (k : ℕ) (j : ℤ) (hk : k < 2 ^ 24)
    (h : toRat a * toRat b ≤ (k : ℚ) * (2 : ℚ) ^ j) :
    toRat (mul a b) ≤ (k : ℚ) * (2 : ℚ) ^ j :=
  round_ub _ 1 _ one_pos k j hk (by rw [mul_val]; exact h)

theorem div_lb (a b : F32) (hb : 0 < b.m) (k : ℕ) (j : ℤ) (hk : k < 2 ^ 24)
    (h : (k : ℚ) * (2 : ℚ) ^ j ≤ toRat a / toRat b) :
    (k : ℚ) * (2 : ℚ) ^ j ≤ toRat (div a b) := by
  unfold div
  rw [if_neg (by omega)]
  exact round_lb _ _ _ (by omega) k j hk (by rw [div_val a b hb]; exact h)

theorem div_ub (a b : F32) (hb : 0 < b.m) (k : ℕ) (j : ℤ) (hk : k < 2 ^ 24)
    (h : toRat a / toRat b ≤ (k : ℚ) * (2 : ℚ) ^ j) :
    toRat (div a b) ≤ (k : ℚ) * (2 : ℚ) ^ j := by
  unfold div
  rw [if_neg (by omega)]
  exact round_ub _ _ _ (by omega) k j hk (by rw [div_val a b hb]; exact h)

theorem sub_exact (a b : F32) (k : ℕ) (hk : k < 2 ^ 24) (h : toRat a - toRat b = k) :
    toRat (sub a b) = k := by
  have h1 := sub_lb a b k 0 hk (by rw [natGrid]; exact h.ge)
  have h2 := sub_ub a b k 0 hk (by rw [natGrid]; exact h.le)
  rw [natGrid] at h1 h2
  exact le_antisymm h2 h1

theorem mul_exact (a b : F32) (k : ℕ) (hk : k < 2 ^ 24) (h : toRat a * toRat b = k) :
    toRat (mul a b) = k := by
  have h1 := mul_lb a b k 0 hk (by rw [natGrid]; exact h.ge)
  have h2 := mul_ub a b k 0 hk (by rw [natGrid]; exact h.le)
  rw [natGrid] at h1 h2
  exact le_antisymm h2 h1

end F32

/-! ## Lemmas on the ppm formula -/

theorem co2_clamp_le (c : F32) : F32.toRat (co2_clamp c) ≤ 5000 := by
  unfold co2_clamp
  simp only
  split_ifs with h1 h2 h3
  · simp [F32.toRat_lit, CO2_SENSOR_MAX_PPM]
  · simp [F32.toRat_lit, CO2_SENSOR_MIN_PPM]
  · simp [F32.toRat_lit, CO2_SENSOR_MAX_PPM]
  · have : ¬ (F32.toRat (F32.lit CO2_SENSOR_MAX_PPM) < F32.toRat c) := by
      rw [← F32.lt_iff]; exact h3
    rw [F32.toRat_lit] at this
    simpa [CO2_SENSOR_MAX_PPM] using this

theorem co2_clamp_id (c : F32) (h0 : 0 ≤ F32.toRat c) (h1 : F32.toRat c ≤ 5000) :
    co2_clamp c = c := by
  have a1 : F32.lt c (F32.lit CO2_SENSOR_MIN_PPM) = false := by
    rw [← Bool.not_eq_true, F32.lt_iff, F32.toRat_lit]
    simpa [CO2_SENSOR_MIN_PPM] using h0
  have a2 : F32.lt (F32.lit CO2_SENSOR_MAX_PPM) c = false := by
    rw [← Bool.not_eq_true, F32.lt_iff, F32.toRat_lit]
    simpa [CO2_SENSOR_MAX_PPM] using h1
  simp [co2_clamp, a1, a2]

theorem calc_le (h p : ℕ) : cj202_calculate_co2_ppm h p ≤ 5000 := by
  unfold cj202_calculate_co2_ppm
  split_ifs
  · exact Nat.zero_le _
  · exact F32.toU32_le _ 5000 (by exact_mod_cast co2_clamp_le _)

theorem denom_exact (p : ℕ) (hp : 4 < p) (hp2 : p ≤ 2052) :
    F32.toRat (F32.sub (F32.ofNat p) (F32.lit 4)) = ((p - 4 : ℕ) : ℚ) ∧
    0 < (F32.sub (F32.ofNat p) (F32.lit 4)).m := by
  have e1 : F32.toRat (F32.ofNat p) = p := F32.ofNat_exact p (by omega)
  have e2 : F32.toRat (F32.sub (F32.ofNat p) (F32.lit 4)) = ((p - 4 : ℕ) : ℚ) := by
    apply F32.sub_exact _ _ (p - 4) (by omega)
    rw [e1, F32.toRat_lit, Nat.cast_sub hp.le]
  refine ⟨e2, ?_⟩
  rw [← F32.toRat_pos_iff, e2]
  have : 0 < p - 4 := by omega
  exact_mod_cast this

theorem quotient_below (a b : ℕ) (hb : 0 < b) (hb2 : b ≤ 2048) (hab : a < b) :
    ((5000 * a / b : ℕ) : ℚ) ≤ F32.toRat (co2_float (a + 2) (b + 4)) ∧
    F32.toRat (co2_float (a + 2) (b + 4)) < ((5000 * a / b : ℕ) : ℚ) + 1 := by
  obtain ⟨d1, d2⟩ := denom_exact (b + 4) (by omega) (by omega)
  rw [Nat.add_sub_cancel] at d1
  have e1 : F32.toRat (F32.ofNat (a + 2)) = ((a + 2 : ℕ) : ℚ) := F32.ofNat_exact _ (by omega)
  have e2 : F32.toRat (F32.sub (F32.ofNat (a + 2)) (F32.lit 2)) = (a : ℚ) := by
    apply F32.sub_exact _ _ a (by omega)
    rw [e1, F32.toRat_lit]
    push_cast
    ring
  have e3 : F32.toRat (F32.mul (F32.lit 5000) (F32.sub (F32.ofNat (a + 2)) (F32.lit 2)))
      = ((5000 * a : ℕ) : ℚ) := by
    apply F32.mul_exact _ _ (5000 * a) (by omega)
    rw [e2, F32.toRat_lit]
    push_cast
    ring
  have hbq : (0 : ℚ) < (b : ℚ) := by exact_mod_cast hb
  have hn : 5000 * a / b < 5000 := by
    rw [Nat.div_lt_iff_lt_mul hb]
    omega
  have hdm : 5000 * a / b * b ≤ 5000 * a := Nat.div_mul_le_self _ _
  have hlt : 5000 * a < (5000 * a / b + 1) * b := by
    have := Nat.lt_succ_iff.2 (le_refl (5000 * a / b))
    exact (Nat.div_lt_iff_lt_mul hb).1 this
  unfold co2_float
  generalize 5000 * a / b = n at hn hdm hlt ⊢
  generalize F32.mul (F32.lit 5000) (F32.sub (F32.ofNat (a + 2)) (F32.lit 2)) = P at e3 ⊢
  generalize F32.sub (F32.ofNat (b + 4)) (F32.lit 4) = B at d1 d2 ⊢
  constructor
  · have := F32.div_lb P B d2 n 0 (by omega)
      (by
        rw [F32.natGrid, e3, d1, le_div_iff₀ hbq]
        exact_mod_cast hdm)
    rwa [F32.natGrid] at this
  · have hk : (n + 1) * 2048 - 1 < 2 ^ 24 := by omega
    have h1 : 1 ≤ (n + 1) * 2048 := by omega
    have e11 : (2 : ℚ) ^ (-11 : ℤ) = 1 / 2048 := by norm_num [zpow_neg]
    have hx : ((5000 * a : ℕ) : ℚ) / (b : ℚ)
        ≤ (((n + 1) * 2048 - 1 : ℕ) : ℚ) * (2 : ℚ) ^ (-11 : ℤ) := by
      have h2 : 5000 * a + 1 ≤ (n + 1) * b := hlt
      have h2q : ((5000 * a : ℕ) : ℚ) + 1 ≤ ((n + 1 : ℕ) : ℚ) * (b : ℚ) := by
        exact_mod_cast h2
      have hb2q : (b : ℚ) ≤ 2048 := by exact_mod_cast hb2
      rw [div_le_iff₀ hbq, Nat.cast_sub h1, e11]
      push_cast at h2q ⊢
      nlinarith [h2q, hb2q, hbq]
    have := F32.div_ub P B d2 _ (-11) hk (by rw [e3, d1]; exact hx)
    refine lt_of_le_of_lt this ?_
    rw [Nat.cast_sub h1, e11]
    push_cast
    linarith

theorem quotient_above (a b : ℕ) (hb : 0 < b) (hb2 : b ≤ 2048) (hab : b ≤ a) :
    (5000 : ℚ) ≤ F32.toRat (co2_float (a + 2) (b + 4)) := by
  obtain ⟨d1, d2⟩ := denom_exact (b + 4) (by omega) (by omega)
  rw [Nat.add_sub_cancel] at d1
  have hbq : (0 : ℚ) < (b : ℚ) := by exact_mod_cast hb
  have e1 : ((b + 2 : ℕ) : ℚ) ≤ F32.toRat (F32.ofNat (a + 2)) :=
    F32.ofNat_lb (a + 2) (b + 2) (by omega) (by omega)
  have e2 : (b : ℚ) ≤ F32.toRat (F32.sub (F32.ofNat (a + 2)) (F32.lit 2)) := by
    have := F32.sub_lb (F32.ofNat (a + 2)) (F32.lit 2) b 0 (by omega)
      (by
        rw [F32.natGrid, F32.toRat_lit]
        push_cast at e1 ⊢
        linarith)
    rwa [F32.natGrid] at this
  have e3 : ((5000 * b : ℕ) : ℚ)
      ≤ F32.toRat (F32.mul (F32.lit 5000) (F32.sub (F32.ofNat (a + 2)) (F32.lit 2))) := by
    have := F32.mul_lb (F32.lit 5000) (F32.sub (F32.ofNat (a + 2)) (F32.lit 2)) (5000 * b) 0
      (by omega)
      (by
        rw [F32.natGrid, F32.toRat_lit]
        push_cast
        linarith)
    rwa [F32.natGrid] at this
  unfold co2_float
  generalize F32.mul (F32.lit 5000) (F32.sub (F32.ofNat (a + 2)) (F32.lit 2)) = P at e3 ⊢
  generalize F32.sub (F32.ofNat (b + 4)) (F32.lit 4) = B at d1 d2 ⊢
  have := F32.div_lb P B d2 5000 0 (by norm_num)
    (by
      rw [F32.natGrid, d1, le_div_iff₀ hbq]
      push_cast at e3 ⊢
      linarith)
  rw [F32.natGrid] at this
  exact_mod_cast this

theorem calc_exact (h p : ℕ) (hh : 2 < h) (hp : 4 < p) (hp2 : p ≤ 2052) :
    cj202_calculate_co2_ppm h p = min 5000 (5000 * (h - 2) / (p - 4)) := by
  obtain ⟨a, rfl⟩ : ∃ a, h = a + 2 := ⟨h - 2, by omega⟩
  obtain ⟨b, rfl⟩ : ∃ b, p = b + 4 := ⟨p - 4, by omega⟩
  simp only [Nat.add_sub_cancel]
  have hb : 0 < b := by omega
  have hb2 : b ≤ 2048 := by omega
  unfold cj202_calculate_co2_ppm
  rw [if_neg (by omega)]
  rcases Nat.lt_or_ge a b with hab | hab
  · obtain ⟨q1, q2⟩ := quotient_below a b hb hb2 hab
    have hn : 5000 * a / b < 5000 := by
      rw [Nat.div_lt_iff_lt_mul hb]
      omega
    have hn2 : ((5000 * a / b : ℕ) : ℚ) + 1 ≤ 5000 := by
      have : 5000 * a / b + 1 ≤ 5000 := hn
      exact_mod_cast this
    rw [co2_clamp_id _ (le_trans (by positivity) q1) (by linarith)]
    rw [F32.toU32_floor _ (5000 * a / b) (by omega) q1 q2]
    omega
  · have q := quotient_above a b hb hb2 hab
    have hx : 5000 ≤ 5000 * a / b := by
      rw [Nat.le_div_iff_mul_le hb]
      nlinarith
    rw [min_eq_left hx]
    apply F32.toU32_floor _ 5000 (by norm_num)
    · unfold co2_clamp
      simp only
      have a1 : F32.lt (co2_float (a + 2) (b + 4)) (F32.lit CO2_SENSOR_MIN_PPM) = false := by
        rw [← Bool.not_eq_true, F32.lt_iff, F32.toRat_lit]
        simp only [CO2_SENSOR_MIN_PPM, Nat.cast_zero, not_lt]
        linarith
      rw [a1]
      simp only [Bool.false_eq_true, if_false]
      split_ifs with h3
      · simp [F32.toRat_lit, CO2_SENSOR_MAX_PPM]
      · exact_mod_cast q
    · have := co2_clamp_le (co2_float (a + 2) (b + 4))
      push_cast
      linarith

theorem ppm_exact_eq (h p : ℕ) (hh : 2 < h) (hp : 4 < p) :
    ppm_exact h p = ((min 5000 (5000 * (h - 2) / (p - 4)) : ℕ) : ℤ) := by
  obtain ⟨a, rfl⟩ : ∃ a, h = a + 2 := ⟨h - 2, by omega⟩
  obtain ⟨b, rfl⟩ : ∃ b, p = b + 4 := ⟨p - 4, by omega⟩
  simp only [Nat.add_sub_cancel]
  have hb : 0 < b := by omega
  have hbq : (0 : ℚ) < (b : ℚ) := by exact_mod_cast hb
  unfold ppm_exact
  have e1 : (5000 : ℚ) * (((a + 2 : ℕ) : ℚ) - 2) / (((b + 4 : ℕ) : ℚ) - 4)
      = ((5000 * a : ℕ) : ℚ) / (b : ℚ) := by
    push_cast
    congr 1 <;> ring
  rw [e1]
  have hq0 : (0 : ℚ) ≤ ((5000 * a : ℕ) : ℚ) / (b : ℚ) := by positivity
  rw [max_eq_left hq0]
  have hdm : 5000 * a / b * b ≤ 5000 * a := Nat.div_mul_le_self _ _
  have hlt : 5000 * a < (5000 * a / b + 1) * b := by
    have := Nat.lt_succ_iff.2 (le_refl (5000 * a / b))
    exact (Nat.div_lt_iff_lt_mul hb).1 this
  rcases Nat.lt_or_ge (5000 * a / b) 5000 with hn | hn
  · rw [min_eq_right hn.le]
    have hq5 : ((5000 * a : ℕ) : ℚ) / (b : ℚ) ≤ 5000 := by
      rw [div_le_iff₀ hbq]
      have : 5000 * a ≤ 5000 * b := by
        have := (Nat.div_lt_iff_lt_mul hb).1 hn
        omega
      exact_mod_cast this
    rw [min_eq_left hq5, Int.floor_eq_iff]
    constructor
    · rw [le_div_iff₀ hbq]
      exact_mod_cast hdm
    · rw [div_lt_iff₀ hbq]
      exact_mod_cast hlt
  · rw [min_eq_left hn]
    have hq5 : (5000 : ℚ) ≤ ((5000 * a : ℕ) : ℚ) / (b : ℚ) := by
      rw [le_div_iff₀ hbq]
      have := (Nat.le_div_iff_mul_le hb).1 hn
      exact_mod_cast this
    rw [min_eq_right hq5]
    have : ⌊(5000 : ℚ)⌋ = 5000 := by simp
    rw [this]
    rfl

/-! ## The claims -/

/-- C1: for every pair of inputs with `period_ms ≤ 4` or `high_level_ms ≤ 2`,
`cj202_calculate_co2_ppm` returns 0. -/
theorem C1_invalid_input_gives_zero (high_level_ms period_ms : ℕ)
    (hinv : period_ms ≤ 4 ∨ high_level_ms ≤ 2) :
    cj202_calculate_co2_ppm high_level_ms period_ms = 0 := by
  unfold cj202_calculate_co2_ppm
  rw [if_pos hinv]

/-- Witness of C1 at `high_level_ms = 100`, `period_ms = 3`. -/
theorem C1_invalid_input_gives_zero_witness :
    ((3 : ℕ) ≤ 4 ∨ (100 : ℕ) ≤ 2) ∧ cj202_calculate_co2_ppm 100 3 = 0 :=
  ⟨by decide, C1_invalid_input_gives_zero 100 3 (by decide)⟩

/-- C2: for every pair of inputs the result of `cj202_calculate_co2_ppm` lies in
`[0, 5000]`; the extreme pair `high = 10000`, `period = 10` is clamped to 5000. -/
theorem C2_result_in_range (high_level_ms period_ms : ℕ) :
    0 ≤ cj202_calculate_co2_ppm high_level_ms period_ms ∧
    cj202_calculate_co2_ppm high_level_ms period_ms ≤ 5000 ∧
    cj202_calculate_co2_ppm 10000 10 = 5000 :=
  ⟨Nat.zero_le _, calc_le _ _, by decide⟩

/-- C3 as stated fails: at `high_level_ms = 5000`, `period_ms = 5003` the exact value
`5000 × 4998 / 4999` truncates to 4998, while the binary32 quotient rounds up to
`4999.0` and the function returns 4999. -/
theorem C3_exact_formula_counterexample :
    cj202_calculate_co2_ppm 5000 5003 = 4999 ∧ ppm_exact 5000 5003 = 4998 ∧
    ((cj202_calculate_co2_ppm 5000 5003 : ℕ) : ℤ) ≠ ppm_exact 5000 5003 := by
  have h1 : cj202_calculate_co2_ppm 5000 5003 = 4999 := by decide
  have h2 : ppm_exact 5000 5003 = 4998 := by
    rw [ppm_exact_eq 5000 5003 (by norm_num) (by norm_num)]
    norm_num
  refine ⟨h1, h2, ?_⟩
  rw [h1, h2]
  norm_num

/-- C3 amended: for `high_level_ms > 2` and `4 < period_ms ≤ 2052` (a range that
contains the accepted period window) `cj202_calculate_co2_ppm` returns
`5000 × (high_level_ms − 2) / (period_ms − 4)`, taken exactly over the rationals,
clamped to `[0, 5000]` and truncated toward zero; in particular 250 for `(52, 1004)`,
1000 for `(202, 1004)` and 2500 for `(502, 1004)`. -/
theorem C3_exact_formula_small_period (high_level_ms period_ms : ℕ)
    (hh : 2 < high_level_ms) (hp : 4 < period_ms) (hsmall : period_ms ≤ 2052) :
    ((cj202_calculate_co2_ppm high_level_ms period_ms : ℕ) : ℤ)
      = ppm_exact high_level_ms period_ms ∧
    cj202_calculate_co2_ppm 52 1004 = 250 ∧
    cj202_calculate_co2_ppm 202 1004 = 1000 ∧
    cj202_calculate_co2_ppm 502 1004 = 2500 := by
  refine ⟨?_, by decide, by decide, by decide⟩
  rw [ppm_exact_eq _ _ hh hp, calc_exact _ _ hh hp hsmall]

/-- Witness of the amended C3 at `(52, 1004)`. -/
theorem C3_exact_formula_small_period_witness :
    ((2 : ℕ) < 52 ∧ (4 : ℕ) < 1004 ∧ (1004 : ℕ) ≤ 2052) ∧
    (((cj202_calculate_co2_ppm 52 1004 : ℕ) : ℤ) = ppm_exact 52 1004 ∧
      cj202_calculate_co2_ppm 52 1004 = 250 ∧
      cj202_calculate_co2_ppm 202 1004 = 1000 ∧
      cj202_calculate_co2_ppm 502 1004 = 2500) :=
  ⟨by decide, C3_exact_formula_small_period 52 1004 (by decide) (by decide) (by decide)⟩

/-- C4: a decode step of the GPIO task taken with `measurement_ready = true` sets
`co2_ppm` to `cj202_calculate_co2_ppm(high_level_time_ms, period_time_ms)` when
`950 ≤ period_time_ms ≤ 1050` and leaves `co2_ppm` at its previous value for every
other period (1100 for example); nothing is re-derived from an older pair. -/
theorem C4_gpio_decode_window (dev : cj202_dev_t) (hready : dev.measurement_ready = true) :
    (cj202_gpio_task dev).co2_ppm
      = (if 950 ≤ dev.period_time_ms ∧ dev.period_time_ms ≤ 1050
          then cj202_calculate_co2_ppm dev.high_level_time_ms dev.period_time_ms
          else dev.co2_ppm) ∧
    (dev.period_time_ms = 1100 → (cj202_gpio_task dev).co2_ppm = dev.co2_ppm) := by
  have key : (cj202_gpio_task dev).co2_ppm
      = (if 950 ≤ dev.period_time_ms ∧ dev.period_time_ms ≤ 1050
          then cj202_calculate_co2_ppm dev.high_level_time_ms dev.period_time_ms
          else dev.co2_ppm) := by
    unfold cj202_gpio_task gpio_period_valid
    rw [if_pos hready]
    by_cases hw : 950 ≤ dev.period_time_ms ∧ dev.period_time_ms ≤ 1050
    · simp [hw]
    · rw [if_neg hw]
      have : (decide (dev.period_time_ms ≥ 950) && decide (dev.period_time_ms ≤ 1050)) = false := by
        rw [Bool.and_eq_false_iff]
        simp only [decide_eq_false_iff_not, ge_iff_le]
        exact not_and_or.1 hw
      simp [this]
  refine ⟨key, ?_⟩
  intro h1100
  rw [key, if_neg]
  omega

/-- Witness of C4 at `dev_stale_period`: the period 1100 is rejected and 777 stays. -/
theorem C4_gpio_decode_window_witness :
    dev_stale_period.measurement_ready = true ∧
    (cj202_gpio_task dev_stale_period).co2_ppm = 777 :=
  ⟨rfl, ((C4_gpio_decode_window dev_stale_period rfl).2 rfl).trans rfl⟩

/-- C5 as stated fails when the GPIO task runs once after each edge: at the edges
`t0 = 50`, `t1 = 452`, `t2 = 1054` (high-time 402 ms, period 1004 ms) the task
consumes `measurement_ready` right after the falling edge, when `period_time_ms` is
still 0, so after the full cycle `cj202_get_ppm` returns 0, while the formula gives
2000 for this cycle.  Only if the wake-ups are served after the third edge does the
value 2000 appear. -/
theorem C5_first_cycle_not_decoded :
    cj202_init true true gpio_env_ok mcpwm_env_ok (some config_gpio) (some none)
      = (ESP_OK, some (some dev_gpio_fresh)) ∧
    cj202_get_ppm true
      (some (sys_run 80000000 (sys_start dev_gpio_fresh)
        [Event.gpio_edge 50 1, Event.gpio_wake, Event.gpio_edge 452 0, Event.gpio_wake,
          Event.gpio_edge 1054 1, Event.gpio_wake]).dev) = 0 ∧
    cj202_calculate_co2_ppm (452 - 50) (1054 - 50) = 2000 ∧
    cj202_get_ppm true
      (some (sys_run 80000000 (sys_start dev_gpio_fresh)
        [Event.gpio_edge 50 1, Event.gpio_edge 452 0, Event.gpio_edge 1054 1,
          Event.gpio_wake, Event.gpio_wake, Event.gpio_wake]).dev) = 2000 ∧
    cj202_get_ppm true
      (some (sys_run 80000000 (sys_start dev_gpio_fresh)
        [Event.gpio_edge 50 1, Event.gpio_wake, Event.gpio_edge 452 0, Event.gpio_wake,
          Event.gpio_edge 1054 1, Event.gpio_wake]).dev)
      ≠ cj202_calculate_co2_ppm (452 - 50) (1054 - 50) := by
  refine ⟨by decide, by decide, by decide, by decide, by decide⟩

/-! ## Frame and invariant lemmas -/

theorem isr_frame (dev : cj202_dev_t) (t : ℕ) (l : ℤ) :
    (gpio_isr_handler dev t l).co2_ppm = dev.co2_ppm ∧
    (gpio_isr_handler dev t l).prev_period_ticks = dev.prev_period_ticks := by
  unfold gpio_isr_handler
  simp only
  split_ifs <;> exact ⟨rfl, rfl⟩

theorem gpio_task_le (dev : cj202_dev_t) (h : dev.co2_ppm ≤ 5000) :
    (cj202_gpio_task dev).co2_ppm ≤ 5000 := by
  unfold cj202_gpio_task
  simp only
  split_ifs
  · exact calc_le _ _
  · exact h
  · exact h

theorem mcpwm_task_le (apb : ℕ) (dev : cj202_dev_t) (n : Option ℕ) (t : ℕ)
    (h : dev.co2_ppm ≤ 5000) : (cj202_mcpwm_task apb dev n t).co2_ppm ≤ 5000 := by
  unfold cj202_mcpwm_task
  cases n with
  | none => exact h
  | some v =>
    simp only
    split_ifs
    · exact calc_le _ _
    · exact calc_le _ _
    · exact h

theorem sys_step_le (apb : ℕ) (s : cj202_sys) (e : Event) (h : s.dev.co2_ppm ≤ 5000) :
    (sys_step apb s e).dev.co2_ppm ≤ 5000 := by
  cases e with
  | gpio_edge t l =>
    simp only [sys_step]
    rw [(isr_frame s.dev t l).1]
    exact h
  | gpio_wake =>
    simp only [sys_step]
    split_ifs
    · exact gpio_task_le _ h
    · exact h
  | capture e v => exact h
  | mcpwm_wake t => exact mcpwm_task_le apb _ _ _ h

theorem sys_run_le (apb : ℕ) (evs : List Event) :
    ∀ s : cj202_sys, s.dev.co2_ppm ≤ 5000 → (sys_run apb s evs).dev.co2_ppm ≤ 5000 := by
  induction evs with
  | nil => intro s h; exact h
  | cons e es ih =>
    intro s h
    exact ih (sys_step apb s e) (sys_step_le apb s e h)

theorem get_ppm_le (has_mcpwm : Bool) (dev : cj202_dev_t) :
    cj202_get_ppm has_mcpwm (some dev) ≤ dev.co2_ppm := by
  unfold cj202_get_ppm
  simp only
  split_ifs
  · exact le_refl _
  · exact le_refl _
  · exact Nat.zero_le _

theorem gpio_init_ok (env : gpio_env) (d : cj202_dev_t) (dev : Option cj202_dev_t)
    (h : cj202_gpio_init env (some d) = (ESP_OK, dev)) :
    dev = some { d with
      rising_time := 0, falling_time := 0, measurement_ready := false,
      high_level_time_ms := 0, period_time_ms := 0, co2_ppm := 0,
      gpio_evt_queue := true, gpio_task_handle := true } := by
  have hf : ESP_FAIL ≠ ESP_OK := by decide
  unfold cj202_gpio_init at h
  simp only at h
  split_ifs at h with h1 h2 h3 h4 h5
  · exact absurd (congrArg Prod.fst h) hf
  · exact absurd (congrArg Prod.fst h) h2
  · exact absurd (congrArg Prod.fst h) h3.1
  · exact absurd (congrArg Prod.fst h) h4
  · exact absurd (congrArg Prod.fst h) hf
  · exact (congrArg Prod.snd h).symm

theorem mcpwm_init_ok (env : mcpwm_env) (d : cj202_dev_t) (dev : Option cj202_dev_t)
    (h : cj202_mcpwm_init env (some d) = (ESP_OK, dev)) :
    dev = some { d with
      co2_ppm := 0, prev_high_ticks := 0, prev_period_ticks := 0,
      first_measurement := true, last_capture_time := 0,
      cap_timer := true, cap_chan := true, mcpwm_task_handle := true } := by
  have hf : ESP_FAIL ≠ ESP_OK := by decide
  unfold cj202_mcpwm_init cleanup_resources at h
  simp only at h
  split_ifs at h with h1 h2 h3 h4 h5 h6 h7
  · exact absurd (congrArg Prod.fst h) h1
  · exact absurd (congrArg Prod.fst h) h2
  · exact absurd (congrArg Prod.fst h) h3
  · exact absurd (congrArg Prod.fst h) h4
  · exact absurd (congrArg Prod.fst h) h5
  · exact absurd (congrArg Prod.fst h) h6
  · exact absurd (congrArg Prod.fst h) hf
  · exact (congrArg Prod.snd h).symm

theorem backend_ok (has_mcpwm : Bool) (genv : gpio_env) (menv : mcpwm_env)
    (d : cj202_dev_t) (hd : d.prev_period_ticks = 0)
    (h : (init_backend has_mcpwm genv menv d).1 = ESP_OK) :
    ∃ dev, (init_backend has_mcpwm genv menv d).2 = some dev ∧
      dev.mode = d.mode ∧ dev.gpio_num = d.gpio_num ∧
      dev.intr_alloc_flags = d.intr_alloc_flags ∧ dev.co2_ppm = 0 ∧
      dev.prev_period_ticks = 0 := by
  have hns : ESP_ERR_NOT_SUPPORTED ≠ ESP_OK := by decide
  unfold init_backend at h ⊢
  split_ifs at h ⊢ with h1 h2
  · have := gpio_init_ok genv d (cj202_gpio_init genv (some d)).2 (Prod.ext h rfl)
    exact ⟨_, this, rfl, rfl, rfl, rfl, hd⟩
  · have := mcpwm_init_ok menv d (cj202_mcpwm_init menv (some d)).2 (Prod.ext h rfl)
    exact ⟨_, this, rfl, rfl, rfl, rfl, rfl⟩
  · exact absurd h hns

theorem init_ok (has_mcpwm alloc_ok : Bool) (genv : gpio_env) (menv : mcpwm_env)
    (config : Option cj202_config_t) (handle : Option (Option cj202_dev_t))
    (h : (cj202_init has_mcpwm alloc_ok genv menv config handle).1 = ESP_OK) :
    ∃ cfg dev, config = some cfg ∧
      (cj202_init has_mcpwm alloc_ok genv menv config handle).2 = some (some dev) ∧
      dev.mode = cfg.mode ∧ dev.gpio_num = cfg.gpio_num ∧
      dev.intr_alloc_flags = cfg.intr_alloc_flags ∧ dev.co2_ppm = 0 ∧
      dev.prev_period_ticks = 0 := by
  have hia : ESP_ERR_INVALID_ARG ≠ ESP_OK := by decide
  have hnm : ESP_ERR_NO_MEM ≠ ESP_OK := by decide
  cases config with
  | none => exact absurd h hia
  | some cfg =>
    cases handle with
    | none => exact absurd h hia
    | some old =>
      simp only [cj202_init] at h ⊢
      split_ifs at h ⊢ with h1 h2
      · exact absurd h hnm
      · exact absurd h h2
      · have h3 : (init_backend has_mcpwm genv menv (dev_of_config cfg)).1 = ESP_OK := by
          by_contra hc
          exact h2 hc
        obtain ⟨dev, e1, e2, e3, e4, e5, e6⟩ :=
          backend_ok has_mcpwm genv menv (dev_of_config cfg) rfl h3
        exact ⟨cfg, dev, rfl, by rw [e1], e2, e3, e4, e5, e6⟩

/-- C6: in every state reached from a successful `cj202_init` (either mode) by any
sequence of edge interrupts with arbitrary timestamps, capture callbacks, GPIO task
wake-ups, notification deliveries and timeouts, `co2_ppm` is at most 5000 (and, being
unsigned, at least 0), so `cj202_get_ppm` returns a value in `[0, 5000]`. -/
theorem C6_published_value_in_range (has_mcpwm alloc_ok : Bool) (genv : gpio_env)
    (menv : mcpwm_env) (config : Option cj202_config_t)
    (handle : Option (Option cj202_dev_t)) (dev : cj202_dev_t) (apb_freq : ℕ)
    (evs : List Event)
    (hinit : cj202_init has_mcpwm alloc_ok genv menv config handle
      = (ESP_OK, some (some dev))) :
    0 ≤ (sys_run apb_freq (sys_start dev) evs).dev.co2_ppm ∧
    (sys_run apb_freq (sys_start dev) evs).dev.co2_ppm ≤ 5000 ∧
    cj202_get_ppm has_mcpwm (some (sys_run apb_freq (sys_start dev) evs).dev) ≤ 5000 := by
  obtain ⟨cfg, dev1, -, e2, -, -, -, e5, -⟩ :=
    init_ok has_mcpwm alloc_ok genv menv config handle (by rw [hinit])
  rw [hinit] at e2
  have hdev : dev = dev1 := by
    have := Option.some.inj (Option.some.inj e2)
    exact this
  have h0 : (sys_start dev).dev.co2_ppm ≤ 5000 := by
    show dev.co2_ppm ≤ 5000
    rw [hdev, e5]
    exact Nat.zero_le _
  have h1 := sys_run_le apb_freq evs (sys_start dev) h0
  exact ⟨Nat.zero_le _, h1, le_trans (get_ppm_le _ _) h1⟩

/-- Witness of C6: a GPIO device run through two full pulse cycles. -/
theorem C6_published_value_in_range_witness :
    cj202_init true true gpio_env_ok mcpwm_env_ok (some config_gpio) (some none)
      = (ESP_OK, some (some dev_gpio_fresh)) ∧
    (0 ≤ (sys_run 80000000 (sys_start dev_gpio_fresh)
        [Event.gpio_edge 50 1, Event.gpio_wake, Event.gpio_edge 452 0, Event.gpio_wake,
          Event.gpio_edge 1054 1, Event.gpio_wake, Event.gpio_edge 1456 0,
          Event.gpio_wake]).dev.co2_ppm ∧
      (sys_run 80000000 (sys_start dev_gpio_fresh)
        [Event.gpio_edge 50 1, Event.gpio_wake, Event.gpio_edge 452 0, Event.gpio_wake,
          Event.gpio_edge 1054 1, Event.gpio_wake, Event.gpio_edge 1456 0,
          Event.gpio_wake]).dev.co2_ppm ≤ 5000 ∧
      cj202_get_ppm true (some (sys_run 80000000 (sys_start dev_gpio_fresh)
        [Event.gpio_edge 50 1, Event.gpio_wake, Event.gpio_edge 452 0, Event.gpio_wake,
          Event.gpio_edge 1054 1, Event.gpio_wake, Event.gpio_edge 1456 0,
          Event.gpio_wake]).dev) ≤ 5000) :=
  ⟨by decide,
    C6_published_value_in_range true true gpio_env_ok mcpwm_env_ok (some config_gpio)
      (some none) dev_gpio_fresh 80000000 _ (by decide)⟩

theorem step_keeps_zero (apb : ℕ) (s : cj202_sys) (e : Event)
    (h0 : s.dev.co2_ppm = 0) (hp : s.dev.prev_period_ticks = 0)
    (ha : accepts apb s e = false) :
    (sys_step apb s e).dev.co2_ppm = 0 ∧ (sys_step apb s e).dev.prev_period_ticks = 0 := by
  cases e with
  | gpio_edge t l =>
    simp only [sys_step]
    rw [(isr_frame s.dev t l).1, (isr_frame s.dev t l).2]
    exact ⟨h0, hp⟩
  | gpio_wake =>
    simp only [sys_step]
    by_cases hq : s.queued > 0
    · rw [if_pos hq]
      simp only [accepts, hq, decide_True, Bool.true_and] at ha
      unfold cj202_gpio_task
      by_cases hr : s.dev.measurement_ready = true
      · rw [hr] at ha
        simp only [Bool.true_and] at ha
        rw [if_pos hr, ha]
        exact ⟨h0, hp⟩
      · rw [if_neg hr]
        exact ⟨h0, hp⟩
    · rw [if_neg hq]
      exact ⟨h0, hp⟩
  | capture e v => exact ⟨h0, hp⟩
  | mcpwm_wake t =>
    simp only [sys_step]
    unfold cj202_mcpwm_task
    cases hn : s.notify with
    | none => exact ⟨h0, hp⟩
    | some v =>
      simp only [accepts, hn] at ha
      simp only [ha, hp]
      simp [h0]

theorem run_keeps_zero (apb : ℕ) (evs : List Event) :
    ∀ s : cj202_sys, s.dev.co2_ppm = 0 → s.dev.prev_period_ticks = 0 →
      no_accept apb s evs = true → (sys_run apb s evs).dev.co2_ppm = 0 := by
  induction evs with
  | nil => intro s h0 _ _; exact h0
  | cons e es ih =>
    intro s h0 hp hna
    simp only [no_accept, Bool.and_eq_true, Bool.not_eq_true'] at hna
    obtain ⟨k0, kp⟩ := step_keeps_zero apb s e h0 hp hna.1
    exact ih (sys_step apb s e) k0 kp hna.2

/-- C7: `cj202_get_ppm` returns 0 for a NULL handle, and returns 0 in every state
reached after a successful `cj202_init` (either mode) by edge interrupts, capture
callbacks, task wake-ups and timeouts among which no decode step accepted a
candidate; the empty sequence gives the freshly initialised handle. -/
theorem C7_zero_until_first_accept (has_mcpwm alloc_ok : Bool) (genv : gpio_env)
    (menv : mcpwm_env) (config : Option cj202_config_t)
    (handle : Option (Option cj202_dev_t)) (dev : cj202_dev_t) (apb_freq : ℕ)
    (evs : List Event)
    (hinit : cj202_init has_mcpwm alloc_ok genv menv config handle
      = (ESP_OK, some (some dev)))
    (hnone : no_accept apb_freq (sys_start dev) evs = true) :
    cj202_get_ppm has_mcpwm none = 0 ∧
    cj202_get_ppm has_mcpwm (some dev) = 0 ∧
    (sys_run apb_freq (sys_start dev) evs).dev.co2_ppm = 0 ∧
    cj202_get_ppm has_mcpwm (some (sys_run apb_freq (sys_start dev) evs).dev) = 0 := by
  obtain ⟨cfg, dev1, -, e2, -, -, -, e5, e6⟩ :=
    init_ok has_mcpwm alloc_ok genv menv config handle (by rw [hinit])
  rw [hinit] at e2
  have hdev : dev = dev1 := Option.some.inj (Option.some.inj e2)
  subst hdev
  have h1 := run_keeps_zero apb_freq evs (sys_start dev) e5 e6 hnone
  have g0 := get_ppm_le has_mcpwm dev
  have g1 := get_ppm_le has_mcpwm (sys_run apb_freq (sys_start dev) evs).dev
  refine ⟨rfl, by omega, h1, by omega⟩

/-- Witness of C7: an MCPWM device after a positive and a negative capture edge, the
first (period-less) notification and a timeout. -/
theorem C7_zero_until_first_accept_witness :
    (cj202_init true true gpio_env_ok mcpwm_env_ok (some config_mcpwm) (some none)
        = (ESP_OK, some (some dev_mcpwm_fresh)) ∧
      no_accept 80000000 (sys_start dev_mcpwm_fresh)
        [Event.capture .MCPWM_CAP_EDGE_POS 1000, Event.capture .MCPWM_CAP_EDGE_NEG 16001000,
          Event.mcpwm_wake 200, Event.mcpwm_wake 1700] = true) ∧
    (cj202_get_ppm true none = 0 ∧
      cj202_get_ppm true (some dev_mcpwm_fresh) = 0 ∧
      (sys_run 80000000 (sys_start dev_mcpwm_fresh)
        [Event.capture .MCPWM_CAP_EDGE_POS 1000, Event.capture .MCPWM_CAP_EDGE_NEG 16001000,
          Event.mcpwm_wake 200, Event.mcpwm_wake 1700]).dev.co2_ppm = 0 ∧
      cj202_get_ppm true (some (sys_run 80000000 (sys_start dev_mcpwm_fresh)
        [Event.capture .MCPWM_CAP_EDGE_POS 1000, Event.capture .MCPWM_CAP_EDGE_NEG 16001000,
          Event.mcpwm_wake 200, Event.mcpwm_wake 1700]).dev) = 0) :=
  ⟨⟨by decide, by decide⟩,
    C7_zero_until_first_accept true true gpio_env_ok mcpwm_env_ok (some config_mcpwm)
      (some none) dev_mcpwm_fresh 80000000 _ (by decide) (by decide)⟩

theorem sample_valid_iff (hm pm : F32) :
    mcpwm_sample_valid hm pm = true ↔
      (0 < F32.toRat pm ∧ F32.toRat hm ≤ F32.toRat pm ∧ 950 ≤ F32.toRat pm ∧
        F32.toRat pm ≤ 1050) := by
  unfold mcpwm_sample_valid
  simp only [Bool.and_eq_true, F32.lt_iff, F32.le_iff, F32.toRat_lit, CO2_PERIOD_MIN_MS,
    CO2_PERIOD_MAX_MS, Nat.cast_zero, Nat.cast_ofNat, and_assoc]

set_option maxRecDepth 200000 in
theorem period_80mhz_check :
    (List.range 101).all (fun i =>
      decide (ticks_to_ms 80000000 ((950 + i) * 80000) = F32.ofNat (950 + i))) = true := by
  decide

theorem period_80mhz (d : ℕ) (h1 : 950 ≤ d) (h2 : d ≤ 1050) :
    F32.toRat (ticks_to_ms 80000000 (d * 80000)) = (d : ℚ) := by
  have hc := period_80mhz_check
  rw [List.all_eq_true] at hc
  have hi := hc (d - 950) (List.mem_range.2 (by omega))
  have e : 950 + (d - 950) = d := by omega
  rw [e] at hi
  rw [of_decide_eq_true hi]
  exact F32.ofNat_exact d (by omega)

/-- C8 as stated fails: at an 80 MHz clock, with the previous notification at tick
time 0 and the next one at 1000 ms carrying 16799999 ticks (209.9999875 ms), the
period 1000 is in the window and the claim predicts the ppm of (209, 1000), which is
1039; the binary32 conversion of the tick count yields 210.0 and the task publishes
the ppm of (210, 1000), which is 1044. -/
theorem C8_exact_conversion_counterexample :
    dev_mcpwm_running.first_measurement = false ∧
    dev_mcpwm_running.last_capture_time = 0 ∧
    dev_mcpwm_running.prev_period_ticks = 0 ∧
    ticks_to_whole_ms 80000000 16799999 = 209 ∧
    cj202_calculate_co2_ppm (ticks_to_whole_ms 80000000 16799999) (1000 - 0) = 1039 ∧
    (cj202_mcpwm_task 80000000 dev_mcpwm_running (some 16799999) 1000).co2_ppm = 1044 ∧
    (cj202_mcpwm_task 80000000 dev_mcpwm_running (some 16799999) 1000).co2_ppm
      ≠ cj202_calculate_co2_ppm (ticks_to_whole_ms 80000000 16799999) (1000 - 0) := by
  refine ⟨by decide, by decide, by decide, by decide, by decide, by decide, by decide⟩

/-- C8 amended: on a delivered notification carrying `high_ticks`, let `period_ms` and
`high_ms` be the binary32 values `(ticks * (1000000.0f / apb_freq)) / 1000.0f` the
task computes from `period_ticks` (`(now − last_capture_time) × (apb_freq / 1000)`
modulo `2^32`, or 0 on the first measurement) and from `high_ticks`.  If
`period_ms > 0`, `period_ms ≥ high_ms` and `950 ≤ period_ms ≤ 1050`, then `co2_ppm`
becomes `cj202_calculate_co2_ppm((uint32_t)high_ms, (uint32_t)period_ms)` and
`(high_ticks, period_ticks)` is stored as the previous valid pair; otherwise, if
`prev_period_ticks > 0`, `co2_ppm` is recomputed from the stored pair converted the
same way and the pair is kept; otherwise `co2_ppm` is unchanged.  In every case
`last_capture_time` becomes `now` and `first_measurement` becomes false.  At an
80 MHz clock every period of 950 to 1050 ms converts exactly. -/
theorem C8_mcpwm_decode (apb_freq : ℕ) (dev : cj202_dev_t) (high_ticks now : ℕ) :
    (cj202_mcpwm_task apb_freq dev (some high_ticks) now).co2_ppm
      = (if 0 < F32.toRat (ticks_to_ms apb_freq (mcpwm_period_ticks apb_freq dev now)) ∧
            F32.toRat (ticks_to_ms apb_freq high_ticks)
              ≤ F32.toRat (ticks_to_ms apb_freq (mcpwm_period_ticks apb_freq dev now)) ∧
            950 ≤ F32.toRat (ticks_to_ms apb_freq (mcpwm_period_ticks apb_freq dev now)) ∧
            F32.toRat (ticks_to_ms apb_freq (mcpwm_period_ticks apb_freq dev now)) ≤ 1050
          then cj202_calculate_co2_ppm (F32.toU32 (ticks_to_ms apb_freq high_ticks))
            (F32.toU32 (ticks_to_ms apb_freq (mcpwm_period_ticks apb_freq dev now)))
          else if 0 < dev.prev_period_ticks
          then cj202_calculate_co2_ppm (F32.toU32 (ticks_to_ms apb_freq dev.prev_high_ticks))
            (F32.toU32 (ticks_to_ms apb_freq dev.prev_period_ticks))
          else dev.co2_ppm) ∧
    ((cj202_mcpwm_task apb_freq dev (some high_ticks) now).prev_high_ticks,
      (cj202_mcpwm_task apb_freq dev (some high_ticks) now).prev_period_ticks)
      = (if 0 < F32.toRat (ticks_to_ms apb_freq (mcpwm_period_ticks apb_freq dev now)) ∧
            F32.toRat (ticks_to_ms apb_freq high_ticks)
              ≤ F32.toRat (ticks_to_ms apb_freq (mcpwm_period_ticks apb_freq dev now)) ∧
            950 ≤ F32.toRat (ticks_to_ms apb_freq (mcpwm_period_ticks apb_freq dev now)) ∧
            F32.toRat (ticks_to_ms apb_freq (mcpwm_period_ticks apb_freq dev now)) ≤ 1050
          then (high_ticks, mcpwm_period_ticks apb_freq dev now)
          else (dev.prev_high_ticks, dev.prev_period_ticks)) ∧
    (cj202_mcpwm_task apb_freq dev (some high_ticks) now).last_capture_time = now ∧
    (cj202_mcpwm_task apb_freq dev (some high_ticks) now).first_measurement = false ∧
    mcpwm_period_ticks apb_freq dev now
      = (if dev.first_measurement = false
          then ((now + 2 ^ 32 - dev.last_capture_time) % 2 ^ 32 * (apb_freq / 1000)) % 2 ^ 32
          else 0) ∧
    (∀ d : Fin 101,
      F32.toRat (ticks_to_ms 80000000 ((950 + d.val) * 80000)) = ((950 + d.val : ℕ) : ℚ)) := by
  have hv := sample_valid_iff (ticks_to_ms apb_freq high_ticks)
    (ticks_to_ms apb_freq (mcpwm_period_ticks apb_freq dev now))
  refine ⟨?_, ?_, ?_, ?_, rfl, fun d => period_80mhz _ (by omega) (by omega)⟩
  · unfold cj202_mcpwm_task
    simp only
    by_cases hc : mcpwm_sample_valid (ticks_to_ms apb_freq high_ticks)
        (ticks_to_ms apb_freq (mcpwm_period_ticks apb_freq dev now)) = true
    · rw [if_pos hc, if_pos (hv.1 hc)]
    · rw [if_neg hc, if_neg (fun h => hc (hv.2 h))]
      split_ifs <;> rfl
  · unfold cj202_mcpwm_task
    simp only
    by_cases hc : mcpwm_sample_valid (ticks_to_ms apb_freq high_ticks)
        (ticks_to_ms apb_freq (mcpwm_period_ticks apb_freq dev now)) = true
    · rw [if_pos hc, if_pos (hv.1 hc)]
    · rw [if_neg hc, if_neg (fun h => hc (hv.2 h))]
      split_ifs <;> rfl
  · unfold cj202_mcpwm_task
    simp only
    split_ifs <;> rfl
  · unfold cj202_mcpwm_task
    simp only
    split_ifs <;> rfl

theorem timeouts_idle (apb : ℕ) (ts : List ℕ) :
    ∀ s : cj202_sys, s.notify = none → sys_run apb s (ts.map Event.mcpwm_wake) = s := by
  induction ts with
  | nil => intro s _; rfl
  | cons t ts ih =>
    intro s hn
    have hstep : sys_step apb s (Event.mcpwm_wake t) = s := by
      simp only [sys_step, hn, cj202_mcpwm_task]
      cases s
      simp_all
    show sys_run apb (sys_step apb s (Event.mcpwm_wake t)) (ts.map Event.mcpwm_wake) = s
    rw [hstep]
    exact ih s hn

/-- C9: an iteration of the MCPWM task whose wait timed out leaves the device record
unchanged, and so does any number of timeouts with no notification pending: the
whole system state, `co2_ppm` included, stays as it was (0 after `cj202_mcpwm_init`
when nothing was accepted, the last published value otherwise); the stored previous
pair is not decoded again. -/
theorem C9_timeout_changes_nothing (apb_freq : ℕ) (s : cj202_sys) (ts : List ℕ)
    (hidle : s.notify = none) :
    (∀ t : ℕ, cj202_mcpwm_task apb_freq s.dev none t = s.dev) ∧
    sys_run apb_freq s (ts.map Event.mcpwm_wake) = s ∧
    (sys_run apb_freq s (ts.map Event.mcpwm_wake)).dev.co2_ppm = s.dev.co2_ppm ∧
    (sys_run apb_freq (sys_start dev_mcpwm_fresh) (ts.map Event.mcpwm_wake)).dev.co2_ppm = 0 := by
  refine ⟨fun t => rfl, timeouts_idle apb_freq ts s hidle, ?_, ?_⟩
  · rw [timeouts_idle apb_freq ts s hidle]
  · rw [timeouts_idle apb_freq ts (sys_start dev_mcpwm_fresh) rfl]
    rfl

/-- Witness of C9: two timeouts on a system that holds an accepted pair and a
published value of 1000 ppm. -/
theorem C9_timeout_changes_nothing_witness :
    (sys_start { dev_mcpwm_running with
        co2_ppm := 1000, prev_high_ticks := 16160000, prev_period_ticks := 80320000 }).notify
      = none ∧
    (sys_run 80000000
        (sys_start { dev_mcpwm_running with
          co2_ppm := 1000, prev_high_ticks := 16160000, prev_period_ticks := 80320000 })
        ([1500, 3000].map Event.mcpwm_wake)).dev.co2_ppm = 1000 :=
  ⟨rfl, (C9_timeout_changes_nothing 80000000
    (sys_start { dev_mcpwm_running with
      co2_ppm := 1000, prev_high_ticks := 16160000, prev_period_ticks := 80320000 })
    [1500, 3000] rfl).2.2.1⟩

theorem init_fst (has_mcpwm : Bool) (genv : gpio_env) (menv : mcpwm_env)
    (cfg : cj202_config_t) (old : Option cj202_dev_t) :
    (cj202_init has_mcpwm true genv menv (some cfg) (some old)).1
      = (init_backend has_mcpwm genv menv (dev_of_config cfg)).1 := by
  have ht : ¬ (true = false) := by decide
  unfold cj202_init
  simp only
  rw [if_neg ht]
  by_cases h : (init_backend has_mcpwm genv menv (dev_of_config cfg)).1 = ESP_OK
  · rw [if_neg (not_not.2 h)]
    exact h.symm
  · rw [if_pos h]

/-- C10 as stated fails when `calloc` fails: with a valid config and handle pointer
`cj202_init` returns `ESP_ERR_NO_MEM`, not `ESP_ERR_NOT_SUPPORTED` for a mode the
target lacks, and not the code the GPIO backend returns (it is never called, and
would return `ESP_OK` here) for a supported mode. -/
theorem C10_alloc_failure_counterexample :
    mode_supported true config_bad_mode.mode = false ∧
    (cj202_init true false gpio_env_ok mcpwm_env_ok (some config_bad_mode) (some none)).1
      = ESP_ERR_NO_MEM ∧
    (cj202_init true false gpio_env_ok mcpwm_env_ok (some config_bad_mode) (some none)).1
      ≠ ESP_ERR_NOT_SUPPORTED ∧
    mode_supported true config_gpio.mode = true ∧
    (cj202_init true false gpio_env_ok mcpwm_env_ok (some config_gpio) (some none)).1
      = ESP_ERR_NO_MEM ∧
    (cj202_gpio_init gpio_env_ok (some (dev_of_config config_gpio))).1 = ESP_OK ∧
    (cj202_init true false gpio_env_ok mcpwm_env_ok (some config_gpio) (some none)).1
      ≠ (cj202_gpio_init gpio_env_ok (some (dev_of_config config_gpio))).1 := by
  refine ⟨by decide, by decide, by decide, by decide, by decide, by decide, by decide⟩

/-- C10 amended: `cj202_init` returns `ESP_ERR_INVALID_ARG` when config or handle is
NULL; otherwise `ESP_ERR_NO_MEM` when the allocation fails; otherwise
`ESP_ERR_NOT_SUPPORTED` when the mode is not one of the capture modes of the target;
otherwise the code returned by the init of the selected backend.  On every return
other than `ESP_OK` the content of `*handle` is what it was, and on `ESP_OK` it is a
device whose mode, pin and flags equal the config and whose `co2_ppm` is 0. -/
theorem C10_init_result (has_mcpwm alloc_ok : Bool) (genv : gpio_env) (menv : mcpwm_env)
    (config : Option cj202_config_t) (handle : Option (Option cj202_dev_t)) :
    ((config = none ∨ handle = none) →
      (cj202_init has_mcpwm alloc_ok genv menv config handle).1 = ESP_ERR_INVALID_ARG) ∧
    (config ≠ none → handle ≠ none → alloc_ok = false →
      (cj202_init has_mcpwm alloc_ok genv menv config handle).1 = ESP_ERR_NO_MEM) ∧
    (∀ cfg, config = some cfg → handle ≠ none → alloc_ok = true →
      mode_supported has_mcpwm cfg.mode = false →
      (cj202_init has_mcpwm alloc_ok genv menv config handle).1 = ESP_ERR_NOT_SUPPORTED) ∧
    (∀ cfg, config = some cfg → handle ≠ none → alloc_ok = true →
      cfg.mode = CJ202_MODE_GPIO_INTERRUPT →
      (cj202_init has_mcpwm alloc_ok genv menv config handle).1
        = (cj202_gpio_init genv (some (dev_of_config cfg))).1) ∧
    (∀ cfg, config = some cfg → handle ≠ none → alloc_ok = true → has_mcpwm = true →
      cfg.mode = CJ202_MODE_MCPWM_CAPTURE →
      (cj202_init has_mcpwm alloc_ok genv menv config handle).1
        = (cj202_mcpwm_init menv (some (dev_of_config cfg))).1) ∧
    ((cj202_init has_mcpwm alloc_ok genv menv config handle).1 ≠ ESP_OK →
      (cj202_init has_mcpwm alloc_ok genv menv config handle).2 = handle) ∧
    ((cj202_init has_mcpwm alloc_ok genv menv config handle).1 = ESP_OK →
      ∃ cfg dev, config = some cfg ∧
        (cj202_init has_mcpwm alloc_ok genv menv config handle).2 = some (some dev) ∧
        dev.mode = cfg.mode ∧ dev.gpio_num = cfg.gpio_num ∧
        dev.intr_alloc_flags = cfg.intr_alloc_flags ∧ dev.co2_ppm = 0) := by
  refine ⟨?_, ?_, ?_, ?_, ?_, ?_, ?_⟩
  · rintro (h | h)
    · subst h; cases handle <;> rfl
    · subst h; cases config <;> rfl
  · intro hc hh ha
    obtain ⟨cfg, rfl⟩ := Option.ne_none_iff_exists'.1 hc
    obtain ⟨old, rfl⟩ := Option.ne_none_iff_exists'.1 hh
    simp [cj202_init, ha]
  · intro cfg hc hh ha hm
    subst hc
    obtain ⟨old, rfl⟩ := Option.ne_none_iff_exists'.1 hh
    have h1 : ¬ (dev_of_config cfg).mode = CJ202_MODE_GPIO_INTERRUPT := by
      intro h
      have : cfg.mode = CJ202_MODE_GPIO_INTERRUPT := h
      simp [mode_supported, this] at hm
    have h2 : ¬ (has_mcpwm = true ∧ (dev_of_config cfg).mode = CJ202_MODE_MCPWM_CAPTURE) := by
      rintro ⟨hx, hy⟩
      have : cfg.mode = CJ202_MODE_MCPWM_CAPTURE := hy
      simp [mode_supported, this, hx] at hm
    have hb : init_backend has_mcpwm genv menv (dev_of_config cfg)
        = (ESP_ERR_NOT_SUPPORTED, some (dev_of_config cfg)) := by
      unfold init_backend
      rw [if_neg h1, if_neg h2]
    have hns : ESP_ERR_NOT_SUPPORTED ≠ ESP_OK := by decide
    simp [cj202_init, ha, hb, hns]
  · intro cfg hc hh ha hm
    subst hc
    subst ha
    obtain ⟨old, rfl⟩ := Option.ne_none_iff_exists'.1 hh
    have hm2 : (dev_of_config cfg).mode = CJ202_MODE_GPIO_INTERRUPT := hm
    rw [init_fst]
    unfold init_backend
    rw [if_pos hm2]
  · intro cfg hc hh ha hx hm
    subst hc
    subst ha
    obtain ⟨old, rfl⟩ := Option.ne_none_iff_exists'.1 hh
    have hm2 : (dev_of_config cfg).mode = CJ202_MODE_MCPWM_CAPTURE := hm
    have h1 : ¬ (dev_of_config cfg).mode = CJ202_MODE_GPIO_INTERRUPT := by
      rw [hm2]
      decide
    rw [init_fst]
    unfold init_backend
    rw [if_neg h1, if_pos ⟨hx, hm2⟩]
  · intro hne
    cases config with
    | none => rfl
    | some cfg =>
      cases handle with
      | none => rfl
      | some old =>
        simp only [cj202_init] at hne ⊢
        split_ifs at hne ⊢ with h1 h2
        · rfl
        · rfl
        · exact absurd rfl hne
  · intro hok
    obtain ⟨cfg, dev, e1, e2, e3, e4, e5, e6, -⟩ :=
      init_ok has_mcpwm alloc_ok genv menv config handle hok
    exact ⟨cfg, dev, e1, e2, e3, e4, e5, e6⟩

/-! ## The edge-interrupt handler and the capture callback -/

theorem wrap_sub_add (now f h : ℕ) (hn : now < 2 ^ 64) (hf : f < 2 ^ 64) :
    ((((now + 2 ^ 64 - f) % 2 ^ 64 + h) % 2 ^ 64 % 2 ^ 32 : ℕ) : ℤ)
      = ((now : ℤ) - (f : ℤ) + (h : ℤ)) % 2 ^ 32 := by
  norm_num at hn hf ⊢
  omega

theorem wrap_sub (now r : ℕ) (hn : now < 2 ^ 64) (hr : r < 2 ^ 64) :
    (((now + 2 ^ 64 - r) % 2 ^ 64 % 2 ^ 32 : ℕ) : ℤ) = ((now : ℤ) - (r : ℤ)) % 2 ^ 32 := by
  norm_num at hn hr ⊢
  omega

/-- C11 as stated fails for the high-time: after a rising edge at 1 ms, a falling
edge at `2^32 + 1` ms stores `high_level_time_ms = 0` (the 64-bit difference `2^32`
truncated to the 32-bit field), not `now − rising_time = 2^32`. -/
theorem C11_high_time_truncated_counterexample :
    (gpio_isr_handler dev_gpio_fresh 1 1).rising_time = 1 ∧
    (gpio_isr_handler (gpio_isr_handler dev_gpio_fresh 1 1) 4294967297 0).high_level_time_ms
      = 0 ∧
    (gpio_isr_handler (gpio_isr_handler dev_gpio_fresh 1 1) 4294967297 0).high_level_time_ms
      ≠ 4294967297 - (gpio_isr_handler dev_gpio_fresh 1 1).rising_time := by
  refine ⟨by decide, by decide, by decide⟩

/-- C11 amended: for every state and timestamp `now` (64-bit values), on a rising edge
the handler sets `rising_time = now` and, if `falling_time > 0`, sets
`period_time_ms = now − falling_time + high_level_time_ms` reduced modulo `2^32`
(otherwise `period_time_ms` is kept), leaving `falling_time`, `high_level_time_ms` and
`measurement_ready` unchanged; on a falling edge it sets `falling_time = now` and, if
`rising_time > 0`, sets `high_level_time_ms = now − rising_time` reduced modulo `2^32`
and `measurement_ready = true` (otherwise both are kept), leaving `rising_time` and
`period_time_ms` unchanged; in both cases `co2_ppm` is unchanged. -/
theorem C11_isr_step (dev : cj202_dev_t) (now : ℕ) (gpio_level : ℤ)
    (hnow : now < 2 ^ 64) (hr : dev.rising_time < 2 ^ 64) (hf : dev.falling_time < 2 ^ 64) :
    (gpio_level = 1 →
      (gpio_isr_handler dev now gpio_level).rising_time = now ∧
      ((gpio_isr_handler dev now gpio_level).period_time_ms : ℤ)
        = (if 0 < dev.falling_time
            then ((now : ℤ) - (dev.falling_time : ℤ) + (dev.high_level_time_ms : ℤ)) % 2 ^ 32
            else (dev.period_time_ms : ℤ)) ∧
      (gpio_isr_handler dev now gpio_level).falling_time = dev.falling_time ∧
      (gpio_isr_handler dev now gpio_level).high_level_time_ms = dev.high_level_time_ms ∧
      (gpio_isr_handler dev now gpio_level).measurement_ready = dev.measurement_ready) ∧
    (gpio_level ≠ 1 →
      (gpio_isr_handler dev now gpio_level).falling_time = now ∧
      ((gpio_isr_handler dev now gpio_level).high_level_time_ms : ℤ)
        = (if 0 < dev.rising_time
            then ((now : ℤ) - (dev.rising_time : ℤ)) % 2 ^ 32
            else (dev.high_level_time_ms : ℤ)) ∧
      (gpio_isr_handler dev now gpio_level).measurement_ready
        = (if 0 < dev.rising_time then true else dev.measurement_ready) ∧
      (gpio_isr_handler dev now gpio_level).rising_time = dev.rising_time ∧
      (gpio_isr_handler dev now gpio_level).period_time_ms = dev.period_time_ms) ∧
    (gpio_isr_handler dev now gpio_level).co2_ppm = dev.co2_ppm := by
  refine ⟨?_, ?_, (isr_frame dev now gpio_level).1⟩
  · intro hl
    unfold gpio_isr_handler
    simp only [hl, if_true]
    by_cases h0 : 0 < dev.falling_time
    · rw [if_pos h0, if_pos h0]
      exact ⟨rfl, wrap_sub_add now dev.falling_time dev.high_level_time_ms hnow hf, rfl, rfl,
        rfl⟩
    · rw [if_neg h0, if_neg h0]
      exact ⟨rfl, rfl, rfl, rfl, rfl⟩
  · intro hl
    unfold gpio_isr_handler
    simp only [hl, if_false]
    by_cases h0 : 0 < dev.rising_time
    · rw [if_pos h0, if_pos h0, if_pos h0]
      exact ⟨rfl, wrap_sub now dev.rising_time hnow hr, rfl, rfl, rfl⟩
    · rw [if_neg h0, if_neg h0, if_neg h0]
      exact ⟨rfl, rfl, rfl, rfl, rfl⟩

/-- Witness of the amended C11: the falling edge at 452 ms after a rising edge at
50 ms stages a high-time of 402 ms and raises `measurement_ready`. -/
theorem C11_isr_step_witness :
    ((452 : ℕ) < 2 ^ 64 ∧ (gpio_isr_handler dev_gpio_fresh 50 1).rising_time < 2 ^ 64 ∧
      (gpio_isr_handler dev_gpio_fresh 50 1).falling_time < 2 ^ 64) ∧
    (gpio_isr_handler (gpio_isr_handler dev_gpio_fresh 50 1) 452 0).co2_ppm
      = (gpio_isr_handler dev_gpio_fresh 50 1).co2_ppm :=
  ⟨by decide,
    (C11_isr_step (gpio_isr_handler dev_gpio_fresh 50 1) 452 0 (by decide) (by decide)
      (by decide)).2.2⟩

/-- C12: after every iteration of the GPIO task `measurement_ready` is false, whether
the candidate was accepted or rejected, and an iteration that finds
`measurement_ready` already false changes no field of the device record. -/
theorem C12_decode_clears_ready (dev : cj202_dev_t) :
    (cj202_gpio_task dev).measurement_ready = false ∧
    (dev.measurement_ready = false → cj202_gpio_task dev = dev) := by
  constructor
  · unfold cj202_gpio_task
    by_cases hr : dev.measurement_ready = true
    · rw [if_pos hr]
    · rw [if_neg hr]
      simpa using hr
  · intro hr
    unfold cj202_gpio_task
    rw [if_neg (by simp [hr])]

/-- C14: in the capture callback a positive edge stores `cap_val_begin = cap_value`,
marks a positive edge pending and sends no notification; a negative edge sends a
notification exactly when a positive edge is pending and `cap_value > cap_val_begin`,
the notified value is then `cap_value − cap_val_begin`, which is positive; a negative
edge taken with a positive edge pending clears the pending mark, and after any
negative edge no positive edge is pending, so a second negative edge with no positive
edge in between sends nothing. -/
theorem C14_capture_callback (d : co2_capture_data_t) (cap_value v2 : ℕ) :
    co2_sensor_capture_callback d .MCPWM_CAP_EDGE_POS cap_value
      = ({ d with cap_val_begin := cap_value, pos_edge_captured := true }, none) ∧
    (co2_sensor_capture_callback d .MCPWM_CAP_EDGE_NEG cap_value).2
      = (if d.pos_edge_captured = true ∧ cap_value > d.cap_val_begin
          then some (cap_value - d.cap_val_begin) else none) ∧
    (∀ n, (co2_sensor_capture_callback d .MCPWM_CAP_EDGE_NEG cap_value).2 = some n →
      n = cap_value - d.cap_val_begin ∧ 0 < n) ∧
    (d.pos_edge_captured = true →
      (co2_sensor_capture_callback d .MCPWM_CAP_EDGE_NEG cap_value).1.pos_edge_captured
        = false) ∧
    (co2_sensor_capture_callback d .MCPWM_CAP_EDGE_NEG cap_value).1.pos_edge_captured
      = false ∧
    (co2_sensor_capture_callback
      (co2_sensor_capture_callback d .MCPWM_CAP_EDGE_NEG cap_value).1
      .MCPWM_CAP_EDGE_NEG v2).2 = none := by
  have hsnd : (co2_sensor_capture_callback d .MCPWM_CAP_EDGE_NEG cap_value).2
      = (if d.pos_edge_captured = true ∧ cap_value > d.cap_val_begin
          then some (cap_value - d.cap_val_begin) else none) := by
    unfold co2_sensor_capture_callback
    simp only
    by_cases hp : d.pos_edge_captured = true
    · by_cases hv : cap_value > d.cap_val_begin
      · rw [if_pos hp, if_pos hv, if_pos ⟨hp, hv⟩]
      · rw [if_pos hp, if_neg hv, if_neg (fun h => hv h.2)]
    · rw [if_neg hp, if_neg (fun h => hp h.1)]
  have hclr : (co2_sensor_capture_callback d .MCPWM_CAP_EDGE_NEG cap_value).1.pos_edge_captured
      = false := by
    unfold co2_sensor_capture_callback
    simp only
    by_cases hp : d.pos_edge_captured = true
    · rw [if_pos hp]
      split_ifs <;> rfl
    · rw [if_neg hp]
      simpa using hp
  refine ⟨rfl, hsnd, ?_, fun _ => hclr, hclr, ?_⟩
  · intro n hn
    rw [hsnd] at hn
    split_ifs at hn with hc
    · have := Option.some.inj hn
      omega
  · generalize (co2_sensor_capture_callback d .MCPWM_CAP_EDGE_NEG cap_value).1 = d1 at hclr
    unfold co2_sensor_capture_callback
    simp only
    rw [if_neg (by rw [hclr]; decide)]

/-! ## Ordering of the edge-interrupt variant -/

theorem isr_rising_fields (dev : cj202_dev_t) (now : ℕ) :
    (gpio_isr_handler dev now 1).rising_time = now ∧
    (gpio_isr_handler dev now 1).falling_time = dev.falling_time ∧
    (gpio_isr_handler dev now 1).measurement_ready = dev.measurement_ready := by
  unfold gpio_isr_handler
  simp only [if_true]
  split_ifs <;> exact ⟨rfl, rfl, rfl⟩

theorem isr_falling_fields (dev : cj202_dev_t) (now : ℕ) (l : ℤ) (hl : l ≠ 1) :
    (gpio_isr_handler dev now l).rising_time = dev.rising_time ∧
    (gpio_isr_handler dev now l).falling_time = now ∧
    (gpio_isr_handler dev now l).measurement_ready
      = (if 0 < dev.rising_time then true else dev.measurement_ready) ∧
    (gpio_isr_handler dev now l).high_level_time_ms
      = (if 0 < dev.rising_time then (now + 2 ^ 64 - dev.rising_time) % 2 ^ 64 % 2 ^ 32
          else dev.high_level_time_ms) := by
  unfold gpio_isr_handler
  simp only [hl, if_false]
  by_cases h0 : 0 < dev.rising_time
  · rw [if_pos h0, if_pos h0, if_pos h0]
    exact ⟨rfl, rfl, rfl, rfl⟩
  · rw [if_neg h0, if_neg h0, if_neg h0]
    exact ⟨rfl, rfl, rfl, rfl⟩

theorem gpio_task_fields (dev : cj202_dev_t) :
    (cj202_gpio_task dev).rising_time = dev.rising_time ∧
    (cj202_gpio_task dev).falling_time = dev.falling_time ∧
    ((cj202_gpio_task dev).measurement_ready = true → dev.measurement_ready = true) := by
  unfold cj202_gpio_task
  simp only
  split_ifs with h1 h2
  · exact ⟨rfl, rfl, fun _ => h1⟩
  · exact ⟨rfl, rfl, fun _ => h1⟩
  · exact ⟨rfl, rfl, fun h => h⟩

theorem gpio_task_ready_false (dev : cj202_dev_t) :
    (cj202_gpio_task dev).measurement_ready = false := by
  unfold cj202_gpio_task
  by_cases hr : dev.measurement_ready = true
  · rw [if_pos hr]
  · rw [if_neg hr]
    simpa using hr

theorem edge_keeps_recorded (dev : cj202_dev_t) (last t : ℕ) (l : ℤ) (hle : last ≤ t)
    (h : edges_recorded dev last) : edges_recorded (gpio_isr_handler dev t l) t := by
  obtain ⟨h1, h2, h3⟩ := h
  by_cases hl : l = 1
  · subst hl
    obtain ⟨e1, e2, e3⟩ := isr_rising_fields dev t
    unfold edges_recorded
    rw [e1, e2, e3]
    refine ⟨le_refl _, by omega, fun hr => ?_⟩
    obtain ⟨a, b⟩ := h3 hr
    exact ⟨by omega, b⟩
  · obtain ⟨e1, e2, e3, -⟩ := isr_falling_fields dev t l hl
    unfold edges_recorded
    rw [e1, e2, e3]
    refine ⟨by omega, le_refl _, fun hr => ?_⟩
    by_cases h0 : 0 < dev.rising_time
    · exact ⟨h0, by omega⟩
    · rw [if_neg h0] at hr
      exact absurd (h3 hr).1 h0

theorem run_keeps_recorded (apb : ℕ) (evs : List Event) :
    ∀ (s : cj202_sys) (last : ℕ), gpio_trace last evs = true →
      edges_recorded s.dev last →
      edges_recorded (sys_run apb s evs).dev (trace_last last evs) := by
  induction evs with
  | nil => intro s last _ h; exact h
  | cons e es ih =>
    intro s last ht h
    cases e with
    | gpio_edge t l =>
      simp only [gpio_trace, Bool.and_eq_true, decide_eq_true_eq] at ht
      exact ih (sys_step apb s (Event.gpio_edge t l)) t ht.2
        (edge_keeps_recorded s.dev last t l ht.1.1 h)
    | gpio_wake =>
      simp only [gpio_trace] at ht
      refine ih (sys_step apb s Event.gpio_wake) last ht ?_
      simp only [sys_step]
      split_ifs
      · obtain ⟨e1, e2, e3⟩ := gpio_task_fields s.dev
        obtain ⟨h1, h2, h3⟩ := h
        unfold edges_recorded
        show (cj202_gpio_task s.dev).rising_time ≤ last ∧
          (cj202_gpio_task s.dev).falling_time ≤ last ∧
          ((cj202_gpio_task s.dev).measurement_ready = true →
            0 < (cj202_gpio_task s.dev).rising_time ∧ 0 < (cj202_gpio_task s.dev).falling_time)
        rw [e1, e2]
        exact ⟨h1, h2, fun hr => h3 (e3 hr)⟩
      · exact h
    | capture e v => simp [gpio_trace] at ht
    | mcpwm_wake t => simp [gpio_trace] at ht

theorem run_no_rising (apb : ℕ) (evs : List Event) :
    ∀ s : cj202_sys, s.dev.rising_time = 0 → s.dev.measurement_ready = false →
      (∀ e ∈ evs, is_rising e = false) →
      (sys_run apb s evs).dev.measurement_ready = false := by
  induction evs with
  | nil => intro s _ h _; exact h
  | cons e es ih =>
    intro s h0 hr hall
    have hes : ∀ e ∈ es, is_rising e = false := fun x hx => hall x (List.mem_cons_of_mem _ hx)
    have he := hall e (List.mem_cons_self _ _)
    refine ih (sys_step apb s e) ?_ ?_ hes
    · cases e with
      | gpio_edge t l =>
        have hl : l ≠ 1 := by simpa [is_rising] using he
        simp only [sys_step]
        rw [(isr_falling_fields s.dev t l hl).1]
        exact h0
      | gpio_wake =>
        simp only [sys_step]
        split_ifs
        · show (cj202_gpio_task s.dev).rising_time = 0
          rw [(gpio_task_fields s.dev).1]
          exact h0
        · exact h0
      | capture e v => exact h0
      | mcpwm_wake t =>
        simp only [sys_step]
        unfold cj202_mcpwm_task
        cases s.notify with
        | none => exact h0
        | some n =>
          simp only
          split_ifs <;> exact h0
    · cases e with
      | gpio_edge t l =>
        have hl : l ≠ 1 := by simpa [is_rising] using he
        simp only [sys_step]
        rw [(isr_falling_fields s.dev t l hl).2.2.1, if_neg (by omega)]
        exact hr
      | gpio_wake =>
        simp only [sys_step]
        split_ifs
        · exact gpio_task_ready_false s.dev
        · exact hr
      | capture e v => exact hr
      | mcpwm_wake t =>
        simp only [sys_step]
        unfold cj202_mcpwm_task
        cases s.notify with
        | none => exact hr
        | some n =>
          simp only
          split_ifs <;> exact hr

/-- C13 as stated fails: after a rising edge at 50 ms, a falling edge at 452 ms and
the next rising edge at 1054 ms with no task iteration since the falling edge,
`measurement_ready` is still true while the most recent edge is the rising one:
`rising_time = 1054` exceeds `falling_time = 452`, and `high_level_time_ms = 402` is
not `falling_time − rising_time`. -/
theorem C13_rising_edge_before_decode_counterexample :
    cj202_gpio_init gpio_env_ok (some (dev_of_config config_gpio))
      = (ESP_OK, some dev_gpio_fresh) ∧
    gpio_trace 0 [Event.gpio_edge 50 1, Event.gpio_wake, Event.gpio_edge 452 0,
      Event.gpio_edge 1054 1] = true ∧
    (sys_run 80000000 (sys_start dev_gpio_fresh)
      [Event.gpio_edge 50 1, Event.gpio_wake, Event.gpio_edge 452 0,
        Event.gpio_edge 1054 1]).dev.measurement_ready = true ∧
    (sys_run 80000000 (sys_start dev_gpio_fresh)
      [Event.gpio_edge 50 1, Event.gpio_wake, Event.gpio_edge 452 0,
        Event.gpio_edge 1054 1]).dev.rising_time = 1054 ∧
    (sys_run 80000000 (sys_start dev_gpio_fresh)
      [Event.gpio_edge 50 1, Event.gpio_wake, Event.gpio_edge 452 0,
        Event.gpio_edge 1054 1]).dev.falling_time = 452 ∧
    (sys_run 80000000 (sys_start dev_gpio_fresh)
      [Event.gpio_edge 50 1, Event.gpio_wake, Event.gpio_edge 452 0,
        Event.gpio_edge 1054 1]).dev.high_level_time_ms = 402 ∧
    ¬ ((sys_run 80000000 (sys_start dev_gpio_fresh)
      [Event.gpio_edge 50 1, Event.gpio_wake, Event.gpio_edge 452 0,
        Event.gpio_edge 1054 1]).dev.falling_time
      ≥ (sys_run 80000000 (sys_start dev_gpio_fresh)
        [Event.gpio_edge 50 1, Event.gpio_wake, Event.gpio_edge 452 0,
          Event.gpio_edge 1054 1]).dev.rising_time) := by
  refine ⟨by decide, by decide, by decide, by decide, by decide, by decide, by decide⟩

/-- C13 amended: in every state reached from `cj202_gpio_init` by edge events with
non-decreasing 64-bit timestamps and task iterations, `measurement_ready = true`
implies that a rising and a falling timestamp have been recorded (`rising_time > 0`,
`falling_time > 0`); a falling edge taken in such a state with `rising_time > 0`
leaves `measurement_ready = true` with that edge the most recent one,
`falling_time = now ≥ rising_time` and `high_level_time_ms = falling_time −
rising_time` reduced modulo `2^32`; a rising edge never changes `measurement_ready`,
and as long as no rising edge occurred `measurement_ready` is false. -/
theorem C13_ready_ordering (env : gpio_env) (d dev : cj202_dev_t) (apb_freq : ℕ)
    (evs : List Event)
    (hinit : cj202_gpio_init env (some d) = (ESP_OK, some dev))
    (htrace : gpio_trace 0 evs = true) :
    ((sys_run apb_freq (sys_start dev) evs).dev.measurement_ready = true →
      0 < (sys_run apb_freq (sys_start dev) evs).dev.rising_time ∧
      0 < (sys_run apb_freq (sys_start dev) evs).dev.falling_time) ∧
    (∀ (now : ℕ) (l : ℤ), trace_last 0 evs ≤ now → now < 2 ^ 64 → l ≠ 1 →
      0 < (sys_run apb_freq (sys_start dev) evs).dev.rising_time →
      (gpio_isr_handler (sys_run apb_freq (sys_start dev) evs).dev now l).measurement_ready
        = true ∧
      (gpio_isr_handler (sys_run apb_freq (sys_start dev) evs).dev now l).falling_time
        = now ∧
      (gpio_isr_handler (sys_run apb_freq (sys_start dev) evs).dev now l).rising_time
        ≤ (gpio_isr_handler (sys_run apb_freq (sys_start dev) evs).dev now l).falling_time ∧
      ((gpio_isr_handler (sys_run apb_freq (sys_start dev) evs).dev now l).high_level_time_ms
          : ℤ)
        = (((gpio_isr_handler (sys_run apb_freq (sys_start dev) evs).dev now l).falling_time
              : ℤ)
            - ((gpio_isr_handler (sys_run apb_freq (sys_start dev) evs).dev now l).rising_time
              : ℤ)) % 2 ^ 32) ∧
    (∀ now : ℕ,
      (gpio_isr_handler (sys_run apb_freq (sys_start dev) evs).dev now 1).measurement_ready
        = (sys_run apb_freq (sys_start dev) evs).dev.measurement_ready) ∧
    ((∀ e ∈ evs, is_rising e = false) →
      (sys_run apb_freq (sys_start dev) evs).dev.measurement_ready = false) := by
  have hdev := gpio_init_ok env d (some dev) hinit
  have hd := Option.some.inj hdev
  have hstart : edges_recorded (sys_start dev).dev 0 := by
    show edges_recorded dev 0
    rw [hd]
    exact ⟨le_refl _, le_refl _, fun h => absurd h Bool.false_ne_true⟩
  obtain ⟨r1, r2, r3⟩ := run_keeps_recorded apb_freq evs (sys_start dev) 0 htrace hstart
  refine ⟨r3, ?_, fun now => (isr_rising_fields _ now).2.2, ?_⟩
  · intro now l hlast hnow hl hpos
    obtain ⟨e1, e2, e3, e4⟩ :=
      isr_falling_fields (sys_run apb_freq (sys_start dev) evs).dev now l hl
    rw [e1, e2, e3, e4, if_pos hpos, if_pos hpos]
    refine ⟨rfl, rfl, by omega, ?_⟩
    exact wrap_sub now _ hnow (by omega)
  · intro hall
    refine run_no_rising apb_freq evs (sys_start dev) ?_ ?_ hall
    · show dev.rising_time = 0
      rw [hd]
    · show dev.measurement_ready = false
      rw [hd]

/-- Witness of the amended C13: after the edges at 50 ms (rising) and 452 ms
(falling), each followed by a task iteration, a falling edge at 1456 ms finds
`rising_time > 0` and raises `measurement_ready`. -/
theorem C13_ready_ordering_witness :
    (cj202_gpio_init gpio_env_ok (some (dev_of_config config_gpio))
        = (ESP_OK, some dev_gpio_fresh) ∧
      gpio_trace 0 [Event.gpio_edge 50 1, Event.gpio_wake, Event.gpio_edge 452 0,
        Event.gpio_wake] = true) ∧
    ((sys_run 80000000 (sys_start dev_gpio_fresh)
        [Event.gpio_edge 50 1, Event.gpio_wake, Event.gpio_edge 452 0,
          Event.gpio_wake]).dev.measurement_ready = true →
      0 < (sys_run 80000000 (sys_start dev_gpio_fresh)
        [Event.gpio_edge 50 1, Event.gpio_wake, Event.gpio_edge 452 0,
          Event.gpio_wake]).dev.rising_time ∧
      0 < (sys_run 80000000 (sys_start dev_gpio_fresh)
        [Event.gpio_edge 50 1, Event.gpio_wake, Event.gpio_edge 452 0,
          Event.gpio_wake]).dev.falling_time) :=
  ⟨⟨by decide, by decide⟩,
    (C13_ready_ordering gpio_env_ok (dev_of_config config_gpio) dev_gpio_fresh 80000000
      [Event.gpio_edge 50 1, Event.gpio_wake, Event.gpio_edge 452 0, Event.gpio_wake]
      (by decide) (by decide)).1⟩

/-! ## Round trip of the edge-interrupt variant by schedule -/

/-- C5 amended: starting from the state left by `cj202_gpio_init` (GPIO mode), for all
timestamps `0 < t0 < t1 < t2` with `950 ≤ t2 − t0 ≤ 1050`, after a rising edge at
`t0`, a falling edge at `t1` and a rising edge at `t2`, with one task iteration per
enqueued wake-up: if no iteration runs between the falling edge and the second rising
edge (all three served after the third edge, or the first one served right after the
first edge), `cj202_get_ppm` returns `cj202_calculate_co2_ppm(t1 − t0, t2 − t0)`; if
an iteration runs after each edge, the one after the falling edge consumes
`measurement_ready` while `period_time_ms` is still 0 and `cj202_get_ppm` returns 0. -/
theorem C5_round_trip_by_schedule (has_mcpwm : Bool) (env : gpio_env) (d dev : cj202_dev_t)
    (apb_freq t0 t1 t2 : ℕ)
    (hinit : cj202_gpio_init env (some d) = (ESP_OK, some dev))
    (hmode : d.mode = CJ202_MODE_GPIO_INTERRUPT)
    (h0 : 0 < t0) (h01 : t0 < t1) (h12 : t1 < t2)
    (hlo : 950 ≤ t2 - t0) (hhi : t2 - t0 ≤ 1050) :
    cj202_get_ppm has_mcpwm
      (some (sys_run apb_freq (sys_start dev)
        [Event.gpio_edge t0 1, Event.gpio_edge t1 0, Event.gpio_edge t2 1,
          Event.gpio_wake, Event.gpio_wake, Event.gpio_wake]).dev)
      = cj202_calculate_co2_ppm (t1 - t0) (t2 - t0) ∧
    cj202_get_ppm has_mcpwm
      (some (sys_run apb_freq (sys_start dev)
        [Event.gpio_edge t0 1, Event.gpio_wake, Event.gpio_edge t1 0, Event.gpio_edge t2 1,
          Event.gpio_wake, Event.gpio_wake]).dev)
      = cj202_calculate_co2_ppm (t1 - t0) (t2 - t0) ∧
    cj202_get_ppm has_mcpwm
      (some (sys_run apb_freq (sys_start dev)
        [Event.gpio_edge t0 1, Event.gpio_wake, Event.gpio_edge t1 0, Event.gpio_wake,
          Event.gpio_edge t2 1, Event.gpio_wake]).dev) = 0 := by
  have hdev := Option.some.inj (gpio_init_ok env d (some dev) hinit)
  subst hdev
  have ht1 : 0 < t1 := by omega
  have ht2 : 0 < t2 := by omega
  have a1 : (t1 + 18446744073709551616 - t0) % 18446744073709551616 % 4294967296
      = t1 - t0 := by omega
  have a2 : (t2 + 18446744073709551616 - t1 + (t1 - t0)) % 18446744073709551616 % 4294967296
      = t2 - t0 := by omega
  have a3 : (t2 + 18446744073709551616 - t1) % 18446744073709551616 % 4294967296
      = t2 - t1 := by omega
  refine ⟨?_, ?_, ?_⟩
  · simp [sys_run, sys_step, sys_start, gpio_isr_handler, cj202_gpio_task,
      gpio_period_valid, cj202_get_ppm, cj202_gpio_get_ppm, hmode, h0, ht1, ht2, a1, a2,
      hlo, hhi]
  · simp [sys_run, sys_step, sys_start, gpio_isr_handler, cj202_gpio_task,
      gpio_period_valid, cj202_get_ppm, cj202_gpio_get_ppm, hmode, h0, ht1, ht2, a1, a2,
      hlo, hhi]
  · simp [sys_run, sys_step, sys_start, gpio_isr_handler, cj202_gpio_task,
      gpio_period_valid, cj202_get_ppm, cj202_gpio_get_ppm, hmode, h0, ht1, ht2, a1, a2,
      hlo, hhi]

/-- Witness of the amended C5 at `t0 = 50`, `t1 = 452`, `t2 = 1054`. -/
theorem C5_round_trip_by_schedule_witness :
    (cj202_gpio_init gpio_env_ok (some (dev_of_config config_gpio))
        = (ESP_OK, some dev_gpio_fresh) ∧
      (dev_of_config config_gpio).mode = CJ202_MODE_GPIO_INTERRUPT ∧
      (0 : ℕ) < 50 ∧ (50 : ℕ) < 452 ∧ (452 : ℕ) < 1054 ∧
      (950 : ℕ) ≤ 1054 - 50 ∧ (1054 : ℕ) - 50 ≤ 1050) ∧
    (cj202_get_ppm true
        (some (sys_run 80000000 (sys_start dev_gpio_fresh)
          [Event.gpio_edge 50 1, Event.gpio_edge 452 0, Event.gpio_edge 1054 1,
            Event.gpio_wake, Event.gpio_wake, Event.gpio_wake]).dev)
        = cj202_calculate_co2_ppm (452 - 50) (1054 - 50) ∧
      cj202_get_ppm true
        (some (sys_run 80000000 (sys_start dev_gpio_fresh)
          [Event.gpio_edge 50 1, Event.gpio_wake, Event.gpio_edge 452 0,
            Event.gpio_edge 1054 1, Event.gpio_wake, Event.gpio_wake]).dev)
        = cj202_calculate_co2_ppm (452 - 50) (1054 - 50) ∧
      cj202_get_ppm true
        (some (sys_run 80000000 (sys_start dev_gpio_fresh)
          [Event.gpio_edge 50 1, Event.gpio_wake, Event.gpio_edge 452 0, Event.gpio_wake,
            Event.gpio_edge 1054 1, Event.gpio_wake]).dev) = 0) :=
  ⟨by decide,
    C5_round_trip_by_schedule true gpio_env_ok (dev_of_config config_gpio) dev_gpio_fresh
      80000000 50 452 1054 (by decide) (by decide) (by decide) (by decide) (by decide)
      (by decide) (by decide)⟩

end CJ202
